import Mathlib

/-!
Shallow embedding of the shopify-viewer synchronization code
(`src/app/api/supabase/products/route.ts` (orders sync POST),
`src/unnamed/part_004` (products sync POST),
`src/unnamed/part_007` (`lib/supabase/database-types`: `safeValue`,
`safeString`, `safeNumber`, `safeDate`),
`src/lib/shopify/client.ts` (`shopifyGraphqlRequest`),
`src/app/api/actions.ts` (`callShopifySync`, sync actions)),
together with theorems settling the specification claims.
-/

namespace ShopifyViewer

/-- A JavaScript number: either `NaN` or an actual numeric value
(modelled as a rational; the sync code performs no arithmetic on
these values, only parsing, defaulting and storage). -/
inductive JSNum where
  | nan : JSNum
  | num : ℚ → JSNum
deriving DecidableEq, Repr

/-- The JavaScript `isNaN` test, on an already-numeric value. -/
def JSNum.isNaN : JSNum → Bool
  | .nan => true
  | .num _ => false

/-- The input type of `safeNumber` in the source:
`number | string | null | undefined`. -/
inductive NumLike where
  | num : JSNum → NumLike
  | str : String → NumLike
  | null : NumLike
  | undefined : NumLike
deriving DecidableEq, Repr

/-- View an optional JavaScript number field (present or `undefined`)
as a `safeNumber` argument. -/
def NumLike.ofNum : Option JSNum → NumLike
  | some x => .num x
  | none => .undefined

/-- View an optional string field (present or `undefined`) as a
`safeNumber` argument. -/
def NumLike.ofStr : Option String → NumLike
  | some s => .str s
  | none => .undefined

/-- Consume a run of leading decimal digits: accumulated value, number
of digits consumed, and the remaining characters. -/
def parseDigits : List Char → ℕ → ℕ → (ℕ × ℕ) × List Char
  | [], acc, k => ((acc, k), [])
  | c :: cs, acc, k =>
    if c.isDigit then parseDigits cs (10 * acc + (c.toNat - 48)) (k + 1)
    else ((acc, k), c :: cs)

/-- Model of the JavaScript `parseFloat` builtin used by `safeNumber`:
parse an optional sign followed by integer and fractional digit runs
from the front of the string; if no digit is found the result is `NaN`.
(Exponents, whitespace and the `Infinity` forms are not modelled; the
claims about `safeNumber` depend only on the `NaN`/non-`NaN` split.) -/
def parseFloat (s : String) : JSNum :=
  let cs := s.toList
  let signAndRest : ℚ × List Char :=
    match cs with
    | '+' :: r => (1, r)
    | '-' :: r => (-1, r)
    | _ => (1, cs)
  let ipart := parseDigits signAndRest.2 0 0
  match ipart.2 with
  | '.' :: r =>
    let fpart := parseDigits r 0 0
    if ipart.1.2 + fpart.1.2 = 0 then .nan
    else .num (signAndRest.1 * ((ipart.1.1 : ℚ) + (fpart.1.1 : ℚ) / (10 : ℚ) ^ fpart.1.2))
  | _ => if ipart.1.2 = 0 then .nan else .num (signAndRest.1 * (ipart.1.1 : ℚ))

/-- `safeValue` from `lib/supabase/database-types`: return the value, or
the default when the value is `null`/`undefined` (`Option.none`). -/
def safeValue {α : Type} (value : Option α) (defaultValue : Option α := none) : Option α :=
  match value with
  | some v => some v
  | none => defaultValue

/-- `safeString` from `lib/supabase/database-types`. -/
def safeString (value : Option String) (defaultValue : Option String := none) : Option String :=
  safeValue value defaultValue

/-- `safeNumber` from `lib/supabase/database-types`:
`null`/`undefined` map to the default; a string is passed through
`parseFloat`; a `NaN` result maps to the default. -/
def safeNumber (value : NumLike) (defaultValue : JSNum := .num 0) : JSNum :=
  match value with
  | .null => defaultValue
  | .undefined => defaultValue
  | .str s =>
    let num := parseFloat s
    if num.isNaN then defaultValue else num
  | .num x => if x.isNaN then defaultValue else x

/-- A JavaScript `Date` object, identified by the ISO string its
`toISOString()` returns. -/
structure JSDate where
  iso : String
deriving DecidableEq, Repr

/-- The input type of `safeDate` in the source:
`string | Date | null | undefined` (the `Option` wrapper supplies
`null`/`undefined`). -/
inductive DateLike where
  | str : String → DateLike
  | date : JSDate → DateLike
deriving DecidableEq, Repr

/-- `safeDate` from `lib/supabase/database-types`: `null`/`undefined`
map to the default (itself `undefined` when not supplied); a `Date` is
converted with `toISOString()`; a string is returned as is. -/
def safeDate (value : Option DateLike) (defaultValue : Option String := none) : Option String :=
  match value with
  | none => defaultValue
  | some (.date d) => some d.iso
  | some (.str s) => some s

/-- JavaScript `a || b` on an optional string: the empty string is
falsy, so it also falls through to `b`. -/
def jsOrStr (a : Option String) (b : Option String) : Option String :=
  match a with
  | some s => if s = "" then b else some s
  | none => b

/-! ## Remote (Shopify) record types

These mirror the shapes consumed by the two sync routes. Fields the
sync code reads through optional chaining (`?.`) are `Option`s; `id`,
`name` and `processedAt` are plain strings because the code tests them
with JavaScript truthiness (`!x`), under which a missing value and the
empty string behave identically, so `""` stands for "absent or empty". -/

/-- A Shopify money object (`{ amount, currencyCode }`); both fields
are read through optional chaining in the sync code. -/
structure SMoney where
  amount : Option String
  currencyCode : Option String
deriving DecidableEq, Repr

/-- A remote product variant as consumed by the products sync. -/
structure SVariant where
  id : String
  title : Option String
  price : Option SMoney
  sku : Option String
  inventoryQuantity : Option JSNum
  weight : Option JSNum
  weightUnit : Option String
deriving DecidableEq, Repr

/-- A remote product image as consumed by the products sync. -/
structure SImage where
  id : String
  url : Option String
  altText : Option String
  width : Option JSNum
  height : Option JSNum
deriving DecidableEq, Repr

/-- A remote product price range (`priceRange?.minVariantPrice?...`). -/
structure SPriceRange where
  minVariantPrice : Option SMoney
  maxVariantPrice : Option SMoney
deriving DecidableEq, Repr

/-- A remote product as consumed by the products sync. -/
structure SProduct where
  id : String
  title : String
  description : Option String
  handle : Option String
  status : Option String
  createdAt : Option DateLike
  updatedAt : Option DateLike
  totalInventory : Option JSNum
  priceRange : Option SPriceRange
  variants : List SVariant
  images : List SImage
deriving DecidableEq, Repr

/-- A remote customer as consumed by the orders sync. -/
structure SCustomer where
  id : String
  firstName : Option String
  lastName : Option String
  email : Option String
  phone : Option String
deriving DecidableEq, Repr

/-- A remote address as consumed by the orders sync. -/
structure SAddress where
  address1 : Option String
  address2 : Option String
  city : Option String
  province : Option String
  zip : Option String
  country : Option String
  name : Option String
  phone : Option String
deriving DecidableEq, Repr

/-- The product reference inside a line item's variant
(`lineItem.variant?.product?.id`). -/
structure SLineItemProduct where
  id : String
deriving DecidableEq, Repr

/-- The variant reference inside a line item
(`lineItem.variant?.id`, `lineItem.variant?.price?...`). -/
structure SLineItemVariant where
  id : String
  price : Option SMoney
  product : Option SLineItemProduct
deriving DecidableEq, Repr

/-- A remote order line item as consumed by the orders sync. -/
structure SLineItem where
  id : String
  title : Option String
  quantity : Option JSNum
  variant : Option SLineItemVariant
deriving DecidableEq, Repr

/-- A remote order as consumed by the orders sync. -/
structure SOrder where
  id : String
  name : String
  email : Option String
  phone : Option String
  processedAt : String
  totalPrice : Option SMoney
  subtotalPrice : Option SMoney
  taxPrice : Option SMoney
  totalShippingPrice : Option SMoney
  displayFinancialStatus : Option String
  displayFulfillmentStatus : Option String
  customer : Option SCustomer
  shippingAddress : Option SAddress
  billingAddress : Option SAddress
  lineItems : List SLineItem
deriving DecidableEq, Repr

/-! ## Formatted rows (`formattedProduct`, `formattedOrder`, ...)

One structure per database table, mirroring the `Partial<...>` objects
the sync code builds before writing. Internal primary keys are `Nat`. -/

/-- `formattedProduct` (products sync, `part_004` lines 77-90). -/
structure ProductData where
  shopify_id : String
  title : String
  description : Option String
  handle : Option String
  status : Option String
  created_at : Option String
  updated_at : Option String
  total_inventory : JSNum
  price_min : JSNum
  price_max : JSNum
  currency_code : Option String
  synced_at : String
deriving DecidableEq, Repr

/-- `formattedVariant` (products sync, `part_004` lines 160-170). -/
structure VariantData where
  product_id : Nat
  shopify_id : String
  title : Option String
  price : JSNum
  sku : Option String
  inventory_quantity : JSNum
  weight : JSNum
  weight_unit : Option String
deriving DecidableEq, Repr

/-- `formattedImage` (products sync, `part_004` lines 212-220). -/
structure ImageData where
  product_id : Nat
  shopify_id : String
  url : Option String
  alt_text : Option String
  width : JSNum
  height : JSNum
deriving DecidableEq, Repr

/-- `formattedOrder` (orders sync, `products/route.ts` lines 308-325). -/
structure OrderData where
  shopify_id : String
  name : String
  email : Option String
  phone : Option String
  processed_at : String
  total_price : JSNum
  subtotal_price : JSNum
  tax_price : JSNum
  shipping_price : JSNum
  currency_code : Option String
  financial_status : Option String
  fulfillment_status : Option String
  synced_at : String
  created_at : Option String
  updated_at : Option String
deriving DecidableEq, Repr

/-- `formattedCustomer` (orders sync, lines 381-387). -/
structure CustomerData where
  shopify_id : String
  first_name : Option String
  last_name : Option String
  email : Option String
  phone : Option String
deriving DecidableEq, Repr

/-- `formattedShippingAddress` / `formattedBillingAddress`
(orders sync, lines 434-446 and 485-497). -/
structure AddressData where
  order_id : Nat
  customer_id : Nat
  address_type : String
  address1 : Option String
  address2 : Option String
  city : Option String
  province : Option String
  zip : Option String
  country : Option String
  name : Option String
  phone : Option String
deriving DecidableEq, Repr

/-- `formattedLineItem` (orders sync, lines 577-586). -/
structure LineItemData where
  order_id : Nat
  shopify_id : String
  title : Option String
  quantity : JSNum
  price : JSNum
  currency_code : Option String
  product_id : Option Nat
  variant_id : Option Nat
deriving DecidableEq, Repr

/-- Build `formattedProduct` from a remote product
(`part_004` lines 77-90). -/
def formatProduct (syncedAt : String) (p : SProduct) : ProductData :=
  { shopify_id := p.id
    title := p.title
    description := safeString p.description
    handle := safeString p.handle
    status := safeString p.status
    created_at := safeDate p.createdAt
    updated_at := safeDate p.updatedAt
    total_inventory := safeNumber (.ofNum p.totalInventory)
    price_min := safeNumber (.ofStr ((p.priceRange.bind (·.minVariantPrice)).bind (·.amount)))
    price_max := safeNumber (.ofStr ((p.priceRange.bind (·.maxVariantPrice)).bind (·.amount)))
    currency_code := safeString ((p.priceRange.bind (·.minVariantPrice)).bind (·.currencyCode))
    synced_at := syncedAt }

/-- Build `formattedVariant` from a remote variant
(`part_004` lines 160-170). -/
def formatVariant (productId : Nat) (v : SVariant) : VariantData :=
  { product_id := productId
    shopify_id := v.id
    title := safeString v.title
    price := safeNumber (.ofStr (v.price.bind (·.amount)))
    sku := safeString v.sku
    inventory_quantity := safeNumber (.ofNum v.inventoryQuantity)
    weight := safeNumber (.ofNum v.weight)
    weight_unit := safeString v.weightUnit }

/-- Build `formattedImage` from a remote image
(`part_004` lines 212-220). -/
def formatImage (productId : Nat) (im : SImage) : ImageData :=
  { product_id := productId
    shopify_id := im.id
    url := safeString im.url
    alt_text := safeString im.altText
    width := safeNumber (.ofNum im.width)
    height := safeNumber (.ofNum im.height) }

/-- Build `formattedOrder` from a remote order
(`products/route.ts` lines 304-325); `now` is the `new Date()` used
for `created_at`/`updated_at`. -/
def formatOrder (syncedAt : String) (now : JSDate) (o : SOrder) : OrderData :=
  { shopify_id := o.id
    name := o.name
    email := safeString o.email
    phone := safeString o.phone
    processed_at := o.processedAt
    total_price := safeNumber (.ofStr (o.totalPrice.bind (·.amount)))
    subtotal_price := safeNumber (.ofStr (o.subtotalPrice.bind (·.amount)))
    tax_price := safeNumber (.ofStr (o.taxPrice.bind (·.amount)))
    shipping_price := safeNumber (.ofStr (o.totalShippingPrice.bind (·.amount)))
    currency_code := safeString (o.totalPrice.bind (·.currencyCode)) (some "USD")
    financial_status := safeString o.displayFinancialStatus (some "UNKNOWN")
    fulfillment_status := safeString o.displayFulfillmentStatus (some "UNKNOWN")
    synced_at := syncedAt
    created_at := safeDate (some (.date now))
    updated_at := safeDate (some (.date now)) }

/-- Build `formattedCustomer` (orders sync, lines 381-387). -/
def formatCustomer (c : SCustomer) : CustomerData :=
  { shopify_id := c.id
    first_name := safeString c.firstName
    last_name := safeString c.lastName
    email := safeString c.email
    phone := safeString c.phone }

/-- Build a formatted address (orders sync, lines 434-446/485-497). -/
def formatAddress (orderId customerId : Nat) (atype : String) (a : SAddress) : AddressData :=
  { order_id := orderId
    customer_id := customerId
    address_type := atype
    address1 := safeString a.address1
    address2 := safeString a.address2
    city := safeString a.city
    province := safeString a.province (some "")
    zip := safeString a.zip
    country := safeString a.country
    name := safeString a.name
    phone := safeString a.phone }

/-- Build `formattedLineItem` (orders sync, lines 577-586); the
currency code falls back through JavaScript `||` from the variant's
price to the order's total price. -/
def formatLineItem (orderId : Nat) (productId variantId : Option Nat)
    (o : SOrder) (li : SLineItem) : LineItemData :=
  { order_id := orderId
    shopify_id := li.id
    title := safeString li.title
    quantity := safeNumber (.ofNum li.quantity)
    price := safeNumber (.ofStr ((li.variant.bind (·.price)).bind (·.amount)))
    currency_code :=
      safeString
        (jsOrStr ((li.variant.bind (·.price)).bind (·.currencyCode))
          (o.totalPrice.bind (·.currencyCode)))
        (some "USD")
    product_id := productId
    variant_id := variantId }

/-! ## Update payloads

The sync writes updates with supabase `.update(formatted)`, whose
payload is serialized with `JSON.stringify`: members whose value is
`undefined` are dropped, so the corresponding columns keep their
stored values. A column is therefore overwritten only when the new
formatted value is present. -/

/-- One column of an update: a present (`some`) new value overwrites,
an `undefined` (`none`) new value is dropped from the payload and the
stored value is kept. -/
def patchField {α : Type} (newv oldv : Option α) : Option α :=
  match newv with
  | some v => some v
  | none => oldv

/-- Apply a `formattedProduct` update payload to a stored row. -/
def mergeProduct (old neu : ProductData) : ProductData :=
  { shopify_id := neu.shopify_id
    title := neu.title
    description := patchField neu.description old.description
    handle := patchField neu.handle old.handle
    status := patchField neu.status old.status
    created_at := patchField neu.created_at old.created_at
    updated_at := patchField neu.updated_at old.updated_at
    total_inventory := neu.total_inventory
    price_min := neu.price_min
    price_max := neu.price_max
    currency_code := patchField neu.currency_code old.currency_code
    synced_at := neu.synced_at }

/-- Apply a `formattedVariant` update payload to a stored row. -/
def mergeVariant (old neu : VariantData) : VariantData :=
  { product_id := neu.product_id
    shopify_id := neu.shopify_id
    title := patchField neu.title old.title
    price := neu.price
    sku := patchField neu.sku old.sku
    inventory_quantity := neu.inventory_quantity
    weight := neu.weight
    weight_unit := patchField neu.weight_unit old.weight_unit }

/-- Apply a `formattedImage` update payload to a stored row. -/
def mergeImage (old neu : ImageData) : ImageData :=
  { product_id := neu.product_id
    shopify_id := neu.shopify_id
    url := patchField neu.url old.url
    alt_text := patchField neu.alt_text old.alt_text
    width := neu.width
    height := neu.height }

/-- Apply a `formattedOrder` update payload to a stored row. -/
def mergeOrder (old neu : OrderData) : OrderData :=
  { shopify_id := neu.shopify_id
    name := neu.name
    email := patchField neu.email old.email
    phone := patchField neu.phone old.phone
    processed_at := neu.processed_at
    total_price := neu.total_price
    subtotal_price := neu.subtotal_price
    tax_price := neu.tax_price
    shipping_price := neu.shipping_price
    currency_code := patchField neu.currency_code old.currency_code
    financial_status := patchField neu.financial_status old.financial_status
    fulfillment_status := patchField neu.fulfillment_status old.fulfillment_status
    synced_at := neu.synced_at
    created_at := patchField neu.created_at old.created_at
    updated_at := patchField neu.updated_at old.updated_at }

/-- Apply a `formattedCustomer` update payload to a stored row. -/
def mergeCustomer (old neu : CustomerData) : CustomerData :=
  { shopify_id := neu.shopify_id
    first_name := patchField neu.first_name old.first_name
    last_name := patchField neu.last_name old.last_name
    email := patchField neu.email old.email
    phone := patchField neu.phone old.phone }

/-- Apply a formatted address update payload to a stored row. -/
def mergeAddress (old neu : AddressData) : AddressData :=
  { order_id := neu.order_id
    customer_id := neu.customer_id
    address_type := neu.address_type
    address1 := patchField neu.address1 old.address1
    address2 := patchField neu.address2 old.address2
    city := patchField neu.city old.city
    province := patchField neu.province old.province
    zip := patchField neu.zip old.zip
    country := patchField neu.country old.country
    name := patchField neu.name old.name
    phone := patchField neu.phone old.phone }

/-- Apply a `formattedLineItem` update payload to a stored row: in
particular, an unresolved (`undefined`) `product_id` or `variant_id`
is dropped from the payload and the stored value survives. -/
def mergeLineItem (old neu : LineItemData) : LineItemData :=
  { order_id := neu.order_id
    shopify_id := neu.shopify_id
    title := patchField neu.title old.title
    quantity := neu.quantity
    price := neu.price
    currency_code := patchField neu.currency_code old.currency_code
    product_id := patchField neu.product_id old.product_id
    variant_id := patchField neu.variant_id old.variant_id }

/-! ## Relational store model

Each table is a list of rows; a row pairs an internally generated
primary key with the formatted data. `.maybeSingle()` lookups are
modelled by `List.find?` on the natural key (under the no-duplicate
invariant at most one row matches, which is what `.maybeSingle()`
requires). An insert appends a row with the next fresh key. -/

/-- A stored row: internal primary key plus formatted data. -/
structure Row (α : Type) where
  id : Nat
  data : α
deriving DecidableEq, Repr

/-- `select ... eq(naturalKey, k).maybeSingle()`. -/
def findRow {α κ : Type} [DecidableEq κ] (key : α → κ) (k : κ) (t : List (Row α)) :
    Option (Row α) :=
  t.find? (fun r => decide (key r.data = k))

/-- `update(d).eq('id', i)`: apply the update payload `d` to the
row(s) with internal key `i`, via the table's merge function (columns
dropped from the payload keep their stored values). -/
def updateRow {α : Type} (merge : α → α → α) (i : Nat) (d : α) (t : List (Row α)) :
    List (Row α) :=
  t.map (fun r => if r.id = i then { id := r.id, data := merge r.data d } else r)

/-- The natural keys currently stored in a table. -/
def keysOf {α κ : Type} (key : α → κ) (t : List (Row α)) : List κ :=
  t.map (fun r => key r.data)

/-- The internal key of the row holding natural key `k`, if any. -/
def idOf {α κ : Type} [DecidableEq κ] (key : α → κ) (k : κ) (t : List (Row α)) :
    Option Nat :=
  (findRow key k t).map (·.id)

/-- The find-or-insert-by-natural-key step shared by every table:
update the found row in place, or append a new row under the fresh
internal key. Returns the new table, the internal key of the touched
row, and the next fresh key. -/
def upsertRow {α κ : Type} [DecidableEq κ] (merge : α → α → α) (key : α → κ) (d : α)
    (t : List (Row α)) (fresh : Nat) : List (Row α) × Nat × Nat :=
  match findRow key (key d) t with
  | some r => (updateRow merge r.id d t, r.id, fresh)
  | none => (t ++ [{ id := fresh, data := d }], fresh, fresh + 1)

/-- The three failure switches of one find/update/insert group: the
existence check, the update and the insert. A `true` switch makes the
corresponding database call report an error (an insert that reports
"no data returned" behaves exactly like a failed insert in the source
and is covered by the insert switch). -/
structure TriErrs where
  check : Bool
  update : Bool
  insert : Bool
deriving DecidableEq, Repr

/-- All switches off: every database call succeeds. -/
def noTri : TriErrs := ⟨false, false, false⟩

/-- Upsert as performed for addresses, line items, variants and
images: a failed existence check is only logged, leaving `data` null,
so the code falls into the insert branch; a failed update or insert
leaves the table unchanged. Returns the table and next fresh key. -/
def softUpsert {α κ : Type} [DecidableEq κ] (e : TriErrs) (merge : α → α → α)
    (key : α → κ) (d : α) (t : List (Row α)) (fresh : Nat) : List (Row α) × Nat :=
  let existing := if e.check then none else findRow key (key d) t
  match existing with
  | some r => if e.update then (t, fresh) else (updateRow merge r.id d t, fresh)
  | none => if e.insert then (t, fresh) else (t ++ [{ id := fresh, data := d }], fresh + 1)

/-- Upsert as performed for products, orders and customers: a failed
update or insert aborts the record (`none`); on success the internal
key of the touched row is returned (the caller handles a failed
existence check before reaching this step). -/
def strictUpsert {α κ : Type} [DecidableEq κ] (eu ei : Bool) (merge : α → α → α)
    (key : α → κ) (d : α) (t : List (Row α)) (fresh : Nat) :
    Option (List (Row α) × Nat × Nat) :=
  match findRow key (key d) t with
  | some r => if eu then none else some (updateRow merge r.id d t, fresh, r.id)
  | none => if ei then none else some (t ++ [{ id := fresh, data := d }], fresh + 1, fresh)

/-- The relational store: the seven tables written by the two sync
jobs, plus the next fresh internal key. -/
structure DB where
  products : List (Row ProductData)
  product_variants : List (Row VariantData)
  product_images : List (Row ImageData)
  orders : List (Row OrderData)
  customers : List (Row CustomerData)
  addresses : List (Row AddressData)
  line_items : List (Row LineItemData)
  nextId : Nat
deriving DecidableEq, Repr

/-- The store before any sync has run. -/
def emptyDB : DB := ⟨[], [], [], [], [], [], [], 0⟩

/-- Natural key of a products row (`shopify_id`). -/
def keyProd (d : ProductData) : String := d.shopify_id

/-- Natural key of a variants row (`shopify_id`). -/
def keyVar (d : VariantData) : String := d.shopify_id

/-- Natural key of an images row (`shopify_id`). -/
def keyImg (d : ImageData) : String := d.shopify_id

/-- Natural key of an orders row (`shopify_id`). -/
def keyOrder (d : OrderData) : String := d.shopify_id

/-- Natural key of a customers row (`shopify_id`). -/
def keyCust (d : CustomerData) : String := d.shopify_id

/-- Natural key of an addresses row: the orders sync reconciles
addresses by `(order_id, address_type)`. -/
def keyAddr (d : AddressData) : Nat × String := (d.order_id, d.address_type)

/-- Natural key of a line-items row (`shopify_id`). -/
def keyLI (d : LineItemData) : String := d.shopify_id

/-! ## The products sync job's per-record processing (`part_004`) -/

/-- Failure switches for one product: its own find/update/insert
group, and one group per variant and image position. -/
structure ProductErrs where
  prod : TriErrs
  var : Nat → TriErrs
  img : Nat → TriErrs

/-- Every database call of the product and its children succeeds. -/
def noProductErrs : ProductErrs := ⟨noTri, fun _ => noTri, fun _ => noTri⟩

/-- Process one variant of a product (`part_004` lines 145-192). -/
def processVariant (e : TriErrs) (productId : Nat) (s : DB) (v : SVariant) : DB :=
  if v.id = "" then s
  else
    let r := softUpsert e mergeVariant keyVar (formatVariant productId v) s.product_variants s.nextId
    { s with product_variants := r.1, nextId := r.2 }

/-- Process one image of a product (`part_004` lines 197-242). -/
def processImage (e : TriErrs) (productId : Nat) (s : DB) (im : SImage) : DB :=
  if im.id = "" then s
  else
    let r := softUpsert e mergeImage keyImg (formatImage productId im) s.product_images s.nextId
    { s with product_images := r.1, nextId := r.2 }

/-- Process the variants of a product in order, with per-position
failure switches. -/
def processVariantsFrom (e : Nat → TriErrs) (productId : Nat) :
    Nat → List SVariant → DB → DB
  | _, [], s => s
  | i, v :: vs, s => processVariantsFrom e productId (i + 1) vs (processVariant (e i) productId s v)

/-- Process the images of a product in order. -/
def processImagesFrom (e : Nat → TriErrs) (productId : Nat) :
    Nat → List SImage → DB → DB
  | _, [], s => s
  | i, im :: ims, s => processImagesFrom e productId (i + 1) ims (processImage (e i) productId s im)

/-- Child processing of one product: all variants, then all images
(`part_004` lines 143-243; the `length > 0` guards are the source's). -/
def processProductChildren (e : ProductErrs) (p : SProduct) (productId : Nat) (s : DB) : DB :=
  let s1 := if p.variants.length > 0 then processVariantsFrom e.var productId 0 p.variants s else s
  if p.images.length > 0 then processImagesFrom e.img productId 0 p.images s1 else s1

/-- Process one product (`part_004` lines 67-244): skip it when `id`
or `title` is falsy, skip it when the existence check, update or
insert fails, otherwise upsert it and process its children. -/
def processProduct (e : ProductErrs) (syncedAt : String) (s : DB) (p : SProduct) : DB :=
  if p.id = "" ∨ p.title = "" then s
  else if e.prod.check then s
  else
    match strictUpsert e.prod.update e.prod.insert mergeProduct keyProd
        (formatProduct syncedAt p) s.products s.nextId with
    | none => s
    | some (t, fresh, productId) =>
      processProductChildren e p productId { s with products := t, nextId := fresh }

/-- Process a batch of products in order, with per-position failure
switches. -/
def processProductsFrom (e : Nat → ProductErrs) (syncedAt : String) :
    Nat → List SProduct → DB → DB
  | _, [], s => s
  | i, p :: ps, s => processProductsFrom e syncedAt (i + 1) ps (processProduct (e i) syncedAt s p)

/-- The record-processing phase of the products sync job. -/
def processProducts (e : Nat → ProductErrs) (syncedAt : String) (ps : List SProduct) (s : DB) : DB :=
  processProductsFrom e syncedAt 0 ps s

/-! ## The orders sync job's per-record processing
(`products/route.ts` lines 294-621) -/

/-- Failure switches for one line item: the product lookup, the
variant lookup, and the line item's own find/update/insert group. -/
structure LIErrs where
  prodLook : Bool
  varLook : Bool
  item : TriErrs

/-- Every database call of the line item succeeds. -/
def noLIErrs : LIErrs := ⟨false, false, noTri⟩

/-- Failure switches for one order: its own group, the customer
group, the shipping- and billing-address groups, and one group per
line-item position. -/
structure OrderErrs where
  ord : TriErrs
  cust : TriErrs
  ship : TriErrs
  bill : TriErrs
  li : Nat → LIErrs

/-- Every database call of the order and its children succeeds. -/
def noOrderErrs : OrderErrs := ⟨noTri, noTri, noTri, noTri, fun _ => noLIErrs⟩

/-- The internal product key resolution for a line item
(`route.ts` lines 544-558): only when `lineItem.variant?.product?.id`
is truthy; a lookup error or a missing product row leaves it unset. -/
def liProductId (e : LIErrs) (li : SLineItem) (s : DB) : Option Nat :=
  match li.variant.bind (·.product) with
  | some p =>
    if p.id = "" then none
    else if e.prodLook then none
    else idOf keyProd p.id s.products
  | none => none

/-- The internal variant key resolution for a line item
(`route.ts` lines 560-574). -/
def liVariantId (e : LIErrs) (li : SLineItem) (s : DB) : Option Nat :=
  match li.variant with
  | some v =>
    if v.id = "" then none
    else if e.varLook then none
    else idOf keyVar v.id s.product_variants
  | none => none

/-- Process one line item (`route.ts` lines 537-619): skip it when its
`id` is falsy; resolve the internal product and variant keys by
external id, leaving them unset on lookup failure or absence; then
find-or-insert the line item by its external id. -/
def processLineItem (e : LIErrs) (o : SOrder) (orderId : Nat) (s : DB) (li : SLineItem) : DB :=
  if li.id = "" then s
  else
    let fli := formatLineItem orderId (liProductId e li s) (liVariantId e li s) o li
    let r := softUpsert e.item mergeLineItem keyLI fli s.line_items s.nextId
    { s with line_items := r.1, nextId := r.2 }

/-- Process the line items of an order in order, with per-position
failure switches. -/
def processLineItemsFrom (e : Nat → LIErrs) (o : SOrder) (orderId : Nat) :
    Nat → List SLineItem → DB → DB
  | _, [], s => s
  | i, li :: lis, s =>
    processLineItemsFrom e o orderId (i + 1) lis (processLineItem (e i) o orderId s li)

/-- The line-item loop of one order (`route.ts` lines 536-620; the
`length > 0` guard is the source's). -/
def processLineItems (e : OrderErrs) (o : SOrder) (orderId : Nat) (s : DB) : DB :=
  if o.lineItems.length > 0 then processLineItemsFrom e.li o orderId 0 o.lineItems s else s

/-- Process one address (`route.ts` lines 432-480 and 483-531),
reconciled by `(order_id, address_type)`. -/
def processAddress (e : TriErrs) (atype : String) (orderId customerId : Nat)
    (a : SAddress) (s : DB) : DB :=
  let r := softUpsert e mergeAddress keyAddr (formatAddress orderId customerId atype a)
    s.addresses s.nextId
  { s with addresses := r.1, nextId := r.2 }

/-- The customer upsert (`route.ts` lines 401-427): on update or
insert failure the store is unchanged and no customer key is produced
(so addresses are skipped). -/
def processCustomer (e : TriErrs) (c : SCustomer) (s : DB) : DB × Option Nat :=
  match strictUpsert e.update e.insert mergeCustomer keyCust (formatCustomer c)
      s.customers s.nextId with
  | none => (s, none)
  | some (t, fresh, cid) => ({ s with customers := t, nextId := fresh }, some cid)

/-- The `if (order.shippingAddress)` / `if (order.billingAddress)`
guard around one address block. -/
def processAddressOpt (e : TriErrs) (atype : String) (orderId customerId : Nat)
    (oa : Option SAddress) (s : DB) : DB :=
  match oa with
  | some a => processAddress e atype orderId customerId a s
  | none => s

/-- Child processing of one order (`route.ts` lines 378-620): the
customer block runs when `order.customer && order.customer.id` is
truthy; a failed customer existence check executes `continue`, which
in the source jumps to the next order of the batch and therefore also
skips this order's addresses and line items; addresses are processed
only under a resolved customer key; then the line items. -/
def processOrderChildren (e : OrderErrs) (o : SOrder) (orderId : Nat) (s : DB) : DB :=
  match o.customer with
  | some c =>
    if c.id = "" then processLineItems e o orderId s
    else if e.cust.check then s
    else
      let rc := processCustomer e.cust c s
      let s2 :=
        match rc.2 with
        | some cid =>
          processAddressOpt e.bill "billing" orderId cid o.billingAddress
            (processAddressOpt e.ship "shipping" orderId cid o.shippingAddress rc.1)
        | none => rc.1
      processLineItems e o orderId s2
  | none => processLineItems e o orderId s

/-- Process one order (`route.ts` lines 294-621): skip it when `id`,
`name` or `processedAt` is falsy, skip it when its existence check,
update or insert fails, otherwise upsert it and process its
children. -/
def processOrder (e : OrderErrs) (syncedAt : String) (now : JSDate) (s : DB) (o : SOrder) : DB :=
  if o.id = "" ∨ o.name = "" ∨ o.processedAt = "" then s
  else if e.ord.check then s
  else
    match strictUpsert e.ord.update e.ord.insert mergeOrder keyOrder
        (formatOrder syncedAt now o) s.orders s.nextId with
    | none => s
    | some (t, fresh, orderId) =>
      processOrderChildren e o orderId { s with orders := t, nextId := fresh }

/-- Process a batch of orders in order, with per-position failure
switches. -/
def processOrdersFrom (e : Nat → OrderErrs) (syncedAt : String) (now : JSDate) :
    Nat → List SOrder → DB → DB
  | _, [], s => s
  | i, o :: os, s => processOrdersFrom e syncedAt now (i + 1) os (processOrder (e i) syncedAt now s o)

/-- The record-processing phase of the orders sync job. -/
def processOrders (e : Nat → OrderErrs) (syncedAt : String) (now : JSDate)
    (os : List SOrder) (s : DB) : DB :=
  processOrdersFrom e syncedAt now 0 os s

/-! ## Remote fetch: `shopifyGraphqlRequest` and the pagination loop -/

/-- The outcome of one HTTP exchange as observed by
`shopifyGraphqlRequest`: either the `fetch` call itself throws, or a
response arrives with an ok flag, a status, a body text, an optional
GraphQL `errors` member and the parsed `data`. -/
inductive HttpOutcome (T : Type) where
  | netError : String → HttpOutcome T
  | response : Bool → Nat → String → Option String → T → HttpOutcome T
deriving DecidableEq, Repr

/-- `shopifyGraphqlRequest` (`lib/shopify/client.ts` lines 16-46)
applied to one HTTP outcome: a network error is re-thrown, a non-OK
response throws `Shopify API error: ...`, a body with `errors` throws
`Shopify GraphQL error: ...`, otherwise `data` is returned. -/
def shopifyGraphqlRequest {T : Type} (o : HttpOutcome T) : Except String T :=
  match o with
  | .netError m => .error m
  | .response ok status body gqlErrors data =>
    if ok = false then .error ("Shopify API error: " ++ toString status ++ " " ++ body)
    else
      match gqlErrors with
      | some e => .error ("Shopify GraphQL error: " ++ e)
      | none => .ok data

/-- One page of remote records together with the page info the loop
reads (`hasNextPage`, `endCursor`). -/
structure Page (R : Type) where
  records : List R
  hasNextPage : Bool
  endCursor : Option String
deriving DecidableEq, Repr

/-- `cursor = result.pageInfo.endCursor || undefined`: a null or empty
cursor becomes `undefined`. -/
def nextCursor (c : Option String) : Option String :=
  match c with
  | some s => if s = "" then none else some s
  | none => none

/-- The pagination loop of both sync jobs (`part_004` lines 39-58,
`route.ts` lines 262-285): request a page for the current cursor,
append its records, and loop while `hasNextPage`, sleeping 500ms
between pages. Returns the accumulated records (or the thrown error),
the number of page requests issued, and the number of inter-page
delays taken; `none` when the supplied fuel bound is exhausted before
the loop exits (the source has no such bound). -/
def fetchLoop {R : Type} (respond : Option String → Except String (Page R)) :
    Nat → Option String → List R → Option (Except String (List R) × Nat × Nat)
  | 0, _, _ => none
  | fuel + 1, cursor, acc =>
    match respond cursor with
    | .error e => some (.error e, 1, 0)
    | .ok page =>
      let acc2 := acc ++ page.records
      if page.hasNextPage then
        match fetchLoop respond fuel (nextCursor page.endCursor) acc2 with
        | none => none
        | some (res, reqs, dels) => some (res, reqs + 1, dels + 1)
      else some (.ok acc2, 1, 0)

/-- The fields of a sync route's JSON response that the claims are
about: the success flag, the HTTP status, the fetched-record count and
the error text of the failure branch. -/
structure RouteResponse where
  success : Bool
  status : Nat
  count : Nat
  error : Option String
deriving DecidableEq, Repr

/-- The orders sync route (`route.ts` lines 246-654): validate the
date range, fetch all pages (a thrown fetch error reaches the `catch`
and yields a 500 response with the store untouched), then process the
accumulated orders. `none` when the pagination fuel runs out. -/
def ordersSyncJob (respond : Option String → Except String (Page SOrder)) (fuel : Nat)
    (e : Nat → OrderErrs) (syncedAt : String) (now : JSDate)
    (startDate endDate : Option String) (s : DB) : Option (RouteResponse × DB) :=
  let sd := startDate.getD ""
  let ed := endDate.getD ""
  if sd = "" ∨ ed = "" then some (⟨false, 400, 0, none⟩, s)
  else
    match fetchLoop respond fuel none [] with
    | none => none
    | some (.error msg, _, _) => some (⟨false, 500, 0, some msg⟩, s)
    | some (.ok allOrders, _, _) =>
      some (⟨true, 200, allOrders.length, none⟩, processOrders e syncedAt now allOrders s)

/-- The products sync route (`part_004` lines 14-274): the initial
products-table access check (its failure yields a 500 response), then
fetch all pages (a thrown fetch error reaches the `catch` and yields a
500 response with the store untouched), then process the accumulated
products. `none` when the pagination fuel runs out. -/
def productsSyncJob (tableCheckErr : Bool)
    (respond : Option String → Except String (Page SProduct)) (fuel : Nat)
    (e : Nat → ProductErrs) (syncedAt : String) (s : DB) : Option (RouteResponse × DB) :=
  if tableCheckErr then some (⟨false, 500, 0, none⟩, s)
  else
    match fetchLoop respond fuel none [] with
    | none => none
    | some (.error msg, _, _) => some (⟨false, 500, 0, some msg⟩, s)
    | some (.ok allProducts, _, _) =>
      some (⟨true, 200, allProducts.length, none⟩, processProducts e syncedAt allProducts s)

/-! ## Server actions (`app/api/actions.ts`) -/

/-- The fields `callShopifySync` reads from the handler's parsed JSON
body; each may be absent at runtime. -/
structure RespData where
  success : Option Bool
  message : Option String
  count : Option JSNum
deriving DecidableEq, Repr

/-- JavaScript `a || b` on an optional boolean (`false` and
`undefined` are falsy). -/
def jsOrBool (a : Option Bool) (b : Bool) : Bool :=
  match a with
  | some true => true
  | _ => b

/-- JavaScript `a || b` on an optional number (`0`, `NaN` and
`undefined` are falsy). -/
def jsOrNum (a : Option JSNum) (b : JSNum) : JSNum :=
  match a with
  | some (.num q) => if q = 0 then b else .num q
  | some .nan => b
  | none => b

/-- The `SyncResponse` shape returned by the server actions. -/
structure SyncResponse where
  success : Bool
  message : String
  count : JSNum
  error : Option String
deriving DecidableEq, Repr

/-- `callShopifySync` (`actions.ts` lines 159-292) as a function of
the outcome of everything inside its `try` (connection test, handler
call, response handling): any thrown error is caught and converted to
`success: false, count: 0`; a successful outcome is reported with
`success: responseData.success || true`, `message: responseData.message
|| 'Operation completed successfully'` and `count: responseData.count
|| 0`. -/
def callShopifySync (outcome : Except String RespData) : SyncResponse :=
  match outcome with
  | .error msg =>
    { success := false
      message := "Operation failed: " ++ msg
      count := .num 0
      error := some msg }
  | .ok rd =>
    { success := jsOrBool rd.success true
      message := (jsOrStr rd.message (some "Operation completed successfully")).getD ""
      count := jsOrNum rd.count (.num 0)
      error := none }

/-- `syncProductsAction` (`actions.ts` lines 298-301): delegates to
`callShopifySync` with the products endpoint. -/
def syncProductsAction (outcome : Except String RespData) : SyncResponse :=
  callShopifySync outcome

/-- `syncOrdersAction` (`actions.ts` lines 307-310): delegates to
`callShopifySync` with the orders endpoint and the date range as the
request body. -/
def syncOrdersAction (_startDate _endDate : String) (outcome : Except String RespData) :
    SyncResponse :=
  callShopifySync outcome

/-- One full error-free sync pass over fixed remote data: the products
job's record-processing phase followed by the orders job's, sharing
one `syncedAt` timestamp and `new Date()` value. -/
def syncPass (syncedAt : String) (now : JSDate) (ps : List SProduct) (os : List SOrder)
    (s : DB) : DB :=
  processOrders (fun _ => noOrderErrs) syncedAt now os
    (processProducts (fun _ => noProductErrs) syncedAt ps s)

/-! ## Invariants and the key-level view of a table

Only the natural keys and internal keys of the rows matter for the
reconciliation claims, so most lemmas speak about `keyIdList`: the
list of (natural key, internal key) pairs of a table. -/

/-- The (natural key, internal key) pairs of a table, in row order. -/
def keyIdList {α κ : Type} (key : α → κ) (t : List (Row α)) : List (κ × Nat) :=
  t.map (fun r => (key r.data, r.id))

/-- The table invariant maintained by the sync jobs: natural keys are
unique, internal keys are unique, and every internal key is below the
fresh counter. -/
def TableOk {α κ : Type} (key : α → κ) (t : List (Row α)) (fresh : Nat) : Prop :=
  (keysOf key t).Nodup ∧ (t.map Row.id).Nodup ∧ ∀ r ∈ t, r.id < fresh

/-- The whole-store invariant: all seven tables are `TableOk` for the
store's fresh counter. -/
def DBOk (s : DB) : Prop :=
  TableOk keyProd s.products s.nextId ∧
  TableOk keyVar s.product_variants s.nextId ∧
  TableOk keyImg s.product_images s.nextId ∧
  TableOk keyOrder s.orders s.nextId ∧
  TableOk keyCust s.customers s.nextId ∧
  TableOk keyAddr s.addresses s.nextId ∧
  TableOk keyLI s.line_items s.nextId

/-- Key lookup on the key-level view of a table. -/
def lookupKI {κ : Type} [DecidableEq κ] (k : κ) (l : List (κ × Nat)) : Option Nat :=
  (l.find? (fun p => decide (p.1 = k))).map Prod.snd

instance decidableTableOk {α κ : Type} [DecidableEq α] [DecidableEq κ] (key : α → κ)
    (t : List (Row α)) (fresh : Nat) : Decidable (TableOk key t fresh) := by
  unfold TableOk
  infer_instance

instance decidableDBOk (s : DB) : Decidable (DBOk s) := by
  unfold DBOk
  infer_instance

/-- The products sync processes a product iff `id` and `title` are
truthy (`part_004` line 71). -/
def productValid (p : SProduct) : Prop := ¬(p.id = "" ∨ p.title = "")

/-- The orders sync processes an order iff `id`, `name` and
`processedAt` are truthy (`route.ts` line 298). -/
def orderValid (o : SOrder) : Prop := ¬(o.id = "" ∨ o.name = "" ∨ o.processedAt = "")

/-- The external customer id the orders sync reconciles for an order,
when the customer block runs (`order.customer && order.customer.id`). -/
def custKey (o : SOrder) : Option String :=
  o.customer.bind (fun c => if c.id = "" then none else some c.id)

instance decidableProductValid (p : SProduct) : Decidable (productValid p) := by
  unfold productValid
  infer_instance

instance decidableOrderValid (o : SOrder) : Decidable (orderValid o) := by
  unfold orderValid
  infer_instance

section TableLemmas

variable {α κ : Type} [DecidableEq κ]

omit [DecidableEq κ] in
theorem TableOk.mono {key : α → κ} {t : List (Row α)} {f f' : Nat}
    (h : TableOk key t f) (hle : f ≤ f') : TableOk key t f' :=
  ⟨h.1, h.2.1, fun r hr => lt_of_lt_of_le (h.2.2 r hr) hle⟩

omit [DecidableEq κ] in
theorem keysOf_eq_keyIdList (key : α → κ) (t : List (Row α)) :
    keysOf key t = (keyIdList key t).map Prod.fst := by
  simp [keysOf, keyIdList, List.map_map]

omit [DecidableEq κ] in
theorem ids_eq_keyIdList (key : α → κ) (t : List (Row α)) :
    t.map Row.id = (keyIdList key t).map Prod.snd := by
  simp [keyIdList, List.map_map]

theorem idOf_eq_lookupKI (key : α → κ) (k : κ) (t : List (Row α)) :
    idOf key k t = lookupKI k (keyIdList key t) := by
  induction t with
  | nil => rfl
  | cons r t ih =>
    by_cases h : key r.data = k
    · simp [idOf, findRow, lookupKI, keyIdList, List.find?_cons_of_pos, h]
    · simp only [idOf, findRow, keyIdList, List.map_cons, lookupKI] at ih ⊢
      rw [List.find?_cons_of_neg _ (by simp [h]), List.find?_cons_of_neg _ (by simp [h])]
      exact ih

theorem lookupKI_append_of_mem {k : κ} {l1 l2 : List (κ × Nat)}
    (h : k ∈ l1.map Prod.fst) : lookupKI k (l1 ++ l2) = lookupKI k l1 := by
  obtain ⟨p, hp, hpk⟩ := List.mem_map.1 h
  have hsome : (l1.find? (fun p => decide (p.1 = k))).isSome := by
    rw [List.find?_isSome]
    exact ⟨p, hp, by simp [hpk]⟩
  obtain ⟨q, hq⟩ := Option.isSome_iff_exists.1 hsome
  simp [lookupKI, List.find?_append, hq]

/-- Extending a table never changes the internal key resolved for a
natural key that is already present. -/
theorem idOf_stable_of_ext {key : α → κ} {t t' : List (Row α)} {ext : List (κ × Nat)} {k : κ}
    (h : keyIdList key t' = keyIdList key t ++ ext) (hk : k ∈ keysOf key t) :
    idOf key k t' = idOf key k t := by
  rw [idOf_eq_lookupKI, idOf_eq_lookupKI, h, lookupKI_append_of_mem]
  rwa [keysOf_eq_keyIdList] at hk

theorem row_eq_of_id_eq {t : List (Row α)} {r r' : Row α}
    (hn : (t.map Row.id).Nodup) (hr : r ∈ t) (hr' : r' ∈ t) (h : r.id = r'.id) : r = r' :=
  List.inj_on_of_nodup_map hn hr hr' h

omit [DecidableEq κ] in
theorem updateRow_map_id (merge : α → α → α) (i : Nat) (d : α) (t : List (Row α)) :
    (updateRow merge i d t).map Row.id = t.map Row.id := by
  unfold updateRow
  rw [List.map_map]
  apply List.map_congr_left
  intro r _
  by_cases h : r.id = i <;> simp [h]

omit [DecidableEq κ] in
theorem keyIdList_updateRow {merge : α → α → α} {key : α → κ} {t : List (Row α)}
    {r : Row α} {d : α} (hn : (t.map Row.id).Nodup) (hr : r ∈ t)
    (hkey : key r.data = key d) (hm : key (merge r.data d) = key d) :
    keyIdList key (updateRow merge r.id d t) = keyIdList key t := by
  unfold keyIdList updateRow
  rw [List.map_map]
  apply List.map_congr_left
  intro r' hr'
  by_cases h : r'.id = r.id
  · have he : r' = r := row_eq_of_id_eq hn hr' hr h
    subst he
    simp [hm, hkey]
  · simp [h]

theorem findRow_eq_none_iff {key : α → κ} {k : κ} {t : List (Row α)} :
    findRow key k t = none ↔ k ∉ keysOf key t := by
  simp only [findRow, List.find?_eq_none, keysOf, List.mem_map, decide_eq_true_eq]
  constructor
  · rintro h ⟨r, hr, he⟩
    exact h r hr he
  · intro h r hr he
    exact h ⟨r, hr, he⟩

theorem findRow_isSome_of_mem {key : α → κ} {k : κ} {t : List (Row α)}
    (h : k ∈ keysOf key t) : ∃ r, findRow key k t = some r := by
  cases hf : findRow key k t with
  | none => exact absurd h (findRow_eq_none_iff.1 hf)
  | some r => exact ⟨r, rfl⟩

theorem findRow_mem_key {key : α → κ} {k : κ} {t : List (Row α)} {r : Row α}
    (h : findRow key k t = some r) : r ∈ t ∧ key r.data = k :=
  ⟨List.mem_of_find?_eq_some h, by simpa using List.find?_some h⟩

theorem mem_keysOf_of_findRow {key : α → κ} {k : κ} {t : List (Row α)} {r : Row α}
    (h : findRow key k t = some r) : k ∈ keysOf key t := by
  obtain ⟨hr, hk⟩ := findRow_mem_key h
  exact List.mem_map.2 ⟨r, hr, hk⟩

theorem findRow_eq_of_nodup {key : α → κ} {k : κ} {t : List (Row α)} {r : Row α}
    (hn : (keysOf key t).Nodup) (hr : r ∈ t) (hk : key r.data = k) :
    findRow key k t = some r := by
  induction t with
  | nil => exact absurd hr (List.not_mem_nil r)
  | cons r0 rest ih =>
    simp only [keysOf, List.map_cons, List.nodup_cons] at hn
    by_cases h0 : key r0.data = k
    · rw [findRow, List.find?_cons_of_pos _ (by simp [h0])]
      rcases List.mem_cons.1 hr with he | hm
      · rw [he]
      · exact absurd (h0 ▸ hk ▸ List.mem_map_of_mem (fun x => key x.data) hm) hn.1
    · have hm : r ∈ rest := by
        rcases List.mem_cons.1 hr with he | hm
        · exact absurd (he ▸ hk) h0
        · exact hm
      rw [findRow, List.find?_cons_of_neg _ (by simp [h0])]
      exact ih hn.2 hm

theorem findRow_updateRow_self {merge : α → α → α} {key : α → κ} {t : List (Row α)}
    {r : Row α} {d : α} (hn : (t.map Row.id).Nodup)
    (hf : findRow key (key d) t = some r) (hm : key (merge r.data d) = key d) :
    findRow key (key d) (updateRow merge r.id d t) = some ⟨r.id, merge r.data d⟩ := by
  induction t with
  | nil => simp [findRow] at hf
  | cons r0 rest ih =>
    simp only [List.map_cons, List.nodup_cons] at hn
    by_cases h0 : key r0.data = key d
    · rw [findRow, List.find?_cons_of_pos _ (by simp [h0])] at hf
      cases hf
      simp only [updateRow, List.map_cons, if_pos rfl]
      rw [findRow, List.find?_cons_of_pos _ (by simp [hm])]
      simp
    · rw [findRow, List.find?_cons_of_neg _ (by simp [h0])] at hf
      have hrmem : r ∈ rest := (findRow_mem_key hf).1
      have hid : r0.id ≠ r.id := by
        intro he
        exact hn.1 (he ▸ List.mem_map_of_mem Row.id hrmem)
      simp only [updateRow, List.map_cons, if_neg hid]
      rw [findRow, List.find?_cons_of_neg _ (by simp [h0])]
      exact ih hn.2 hf

theorem findRow_append_right {key : α → κ} {k : κ} {t : List (Row α)} {x : Row α}
    (hf : findRow key k t = none) (hx : key x.data = k) :
    findRow key k (t ++ [x]) = some x := by
  rw [findRow, List.find?_append]
  rw [findRow] at hf
  simp [hf, hx]

theorem bound_of_map_id_eq {t t' : List (Row α)} {f : Nat}
    (he : t'.map Row.id = t.map Row.id) (hb : ∀ r ∈ t, r.id < f) :
    ∀ r ∈ t', r.id < f := by
  intro r hr
  have : r.id ∈ t'.map Row.id := List.mem_map_of_mem Row.id hr
  rw [he] at this
  obtain ⟨r0, hr0, he0⟩ := List.mem_map.1 this
  exact he0 ▸ hb r0 hr0

/-- Everything the development needs about one find-or-insert step:
the key-level view is extended by entries for the upserted key only;
the upserted key is present afterwards; when the key already existed
the view and the fresh counter are unchanged; the fresh counter is
monotone; the upserted key resolves to the returned internal key; and
the row found under the upserted key afterwards holds the inserted
payload, or the stored row patched with the update payload. -/
theorem upsertRow_spec (merge : α → α → α) (key : α → κ) (d : α) (t : List (Row α))
    (fresh : Nat) (hn : (t.map Row.id).Nodup) (hm : ∀ old, key (merge old d) = key d) :
    (∃ ext, keyIdList key (upsertRow merge key d t fresh).1 = keyIdList key t ++ ext ∧
        ∀ p ∈ ext, p.1 = key d ∧ p.2 = fresh) ∧
    key d ∈ keysOf key (upsertRow merge key d t fresh).1 ∧
    (key d ∈ keysOf key t →
      keyIdList key (upsertRow merge key d t fresh).1 = keyIdList key t ∧
      (upsertRow merge key d t fresh).2.2 = fresh) ∧
    fresh ≤ (upsertRow merge key d t fresh).2.2 ∧
    idOf key (key d) (upsertRow merge key d t fresh).1 =
      some (upsertRow merge key d t fresh).2.1 ∧
    (findRow key (key d) t = none →
      findRow key (key d) (upsertRow merge key d t fresh).1 =
        some ⟨(upsertRow merge key d t fresh).2.1, d⟩) ∧
    (∀ r, findRow key (key d) t = some r →
      findRow key (key d) (upsertRow merge key d t fresh).1 =
        some ⟨(upsertRow merge key d t fresh).2.1, merge r.data d⟩) := by
  cases hf : findRow key (key d) t with
  | some r =>
    obtain ⟨hrm, hrk⟩ := findRow_mem_key hf
    have hkil : keyIdList key (updateRow merge r.id d t) = keyIdList key t :=
      keyIdList_updateRow hn hrm hrk (hm r.data)
    have hdm : key d ∈ keysOf key t := mem_keysOf_of_findRow hf
    have hfself : findRow key (key d) (updateRow merge r.id d t) =
        some ⟨r.id, merge r.data d⟩ := findRow_updateRow_self hn hf (hm r.data)
    refine ⟨⟨[], by simp [upsertRow, hf, hkil], by simp⟩, ?_,
      fun _ => ⟨by simp [upsertRow, hf, hkil], by simp [upsertRow, hf]⟩,
      by simp [upsertRow, hf], ?_, ?_, ?_⟩
    · rw [keysOf_eq_keyIdList]
      simp only [upsertRow, hf, hkil]
      rw [← keysOf_eq_keyIdList]
      exact hdm
    · simp only [upsertRow, hf]
      rw [idOf, hfself]
      rfl
    · intro hnone
      exact Option.noConfusion hnone
    · intro r' hr'
      have hrr : r = r' := by
        injection hr'
      subst hrr
      simp only [upsertRow, hf]
      exact hfself
  | none =>
    have hnot : key d ∉ keysOf key t := findRow_eq_none_iff.1 hf
    have hfself : findRow key (key d) (t ++ [{ id := fresh, data := d }]) =
        some { id := fresh, data := d } := findRow_append_right hf rfl
    refine ⟨⟨[(key d, fresh)], by simp [upsertRow, hf, keyIdList], by simp⟩, ?_,
      fun hmm => absurd hmm hnot, by simp [upsertRow, hf], ?_, ?_, ?_⟩
    · simp [upsertRow, hf, keysOf]
    · simp only [upsertRow, hf]
      rw [idOf, hfself]
      rfl
    · intro _
      simp only [upsertRow, hf]
      exact hfself
    · intro r' hr'
      exact Option.noConfusion hr'

/-- One find-or-insert step preserves the table invariant. -/
theorem upsertRow_tableOk {merge : α → α → α} {key : α → κ} {d : α} {t : List (Row α)}
    {fresh : Nat} (h : TableOk key t fresh) (hm : ∀ old, key (merge old d) = key d) :
    TableOk key (upsertRow merge key d t fresh).1 (upsertRow merge key d t fresh).2.2 := by
  obtain ⟨hkeys, hids, hb⟩ := h
  cases hf : findRow key (key d) t with
  | some r =>
    obtain ⟨hrm, hrk⟩ := findRow_mem_key hf
    have hkil : keyIdList key (updateRow merge r.id d t) = keyIdList key t :=
      keyIdList_updateRow hids hrm hrk (hm r.data)
    refine ⟨?_, ?_, ?_⟩
    · rw [keysOf_eq_keyIdList]
      simp only [upsertRow, hf, hkil]
      rw [← keysOf_eq_keyIdList]
      exact hkeys
    · simp only [upsertRow, hf]
      rw [updateRow_map_id]
      exact hids
    · simp only [upsertRow, hf]
      exact bound_of_map_id_eq (updateRow_map_id merge r.id d t) hb
  | none =>
    have hnot : key d ∉ keysOf key t := findRow_eq_none_iff.1 hf
    refine ⟨?_, ?_, ?_⟩
    · simp only [upsertRow, hf]
      have : keysOf key (t ++ [⟨fresh, d⟩]) = keysOf key t ++ [key d] := by
        simp [keysOf]
      rw [this, List.nodup_append]
      exact ⟨hkeys, List.nodup_singleton _, by simpa using hnot⟩
    · simp only [upsertRow, hf, List.map_append]
      rw [List.nodup_append]
      refine ⟨hids, by simp, ?_⟩
      intro x hx
      obtain ⟨r0, hr0, he0⟩ := List.mem_map.1 hx
      simp only [List.map_cons, List.map_nil, List.mem_singleton]
      intro hcon
      subst hcon
      exact absurd (he0 ▸ hb r0 hr0) (lt_irrefl _)
    · simp only [upsertRow, hf]
      intro r hr
      rcases List.mem_append.1 hr with hl | hr1
      · exact Nat.lt_succ_of_lt (hb r hl)
      · simp only [List.mem_singleton] at hr1
        subst hr1
        exact Nat.lt_succ_self _

omit [DecidableEq κ] in
theorem keys_subset_of_ext {key : α → κ} {t t' : List (Row α)} {ext : List (κ × Nat)}
    (h : keyIdList key t' = keyIdList key t ++ ext) : keysOf key t ⊆ keysOf key t' := by
  rw [keysOf_eq_keyIdList, keysOf_eq_keyIdList, h, List.map_append]
  exact List.subset_append_left _ _

omit [DecidableEq κ] in
theorem keys_eq_of_kil_eq {key : α → κ} {t t' : List (Row α)}
    (h : keyIdList key t' = keyIdList key t) : keysOf key t' = keysOf key t := by
  rw [keysOf_eq_keyIdList, keysOf_eq_keyIdList, h]

omit [DecidableEq κ] in
theorem length_eq_of_keys_eq {key : α → κ} {t t' : List (Row α)}
    (h : keysOf key t' = keysOf key t) : t'.length = t.length := by
  have h1 : t'.length = (keysOf key t').length := by simp [keysOf]
  rw [h1, h]
  simp [keysOf]

/-- With every failure switch off, the soft upsert is the plain
find-or-insert step. -/
theorem softUpsert_noTri (merge : α → α → α) (key : α → κ) (d : α) (t : List (Row α))
    (fresh : Nat) :
    softUpsert noTri merge key d t fresh =
      ((upsertRow merge key d t fresh).1, (upsertRow merge key d t fresh).2.2) := by
  cases hf : findRow key (key d) t <;> simp [softUpsert, upsertRow, noTri, hf]

/-- With both failure switches off, the strict upsert is the plain
find-or-insert step. -/
theorem strictUpsert_noErr (merge : α → α → α) (key : α → κ) (d : α) (t : List (Row α))
    (fresh : Nat) :
    strictUpsert false false merge key d t fresh =
      some ((upsertRow merge key d t fresh).1, (upsertRow merge key d t fresh).2.2,
        (upsertRow merge key d t fresh).2.1) := by
  cases hf : findRow key (key d) t <;> simp [strictUpsert, upsertRow, hf]

end TableLemmas

theorem emptyDB_ok : DBOk emptyDB := by
  refine ⟨?_, ?_, ?_, ?_, ?_, ?_, ?_⟩ <;>
    exact ⟨by simp [keysOf, emptyDB], by simp [emptyDB], by intro r hr; simp [emptyDB] at hr⟩

/-! ## Per-step facts about the products sync processing -/

theorem processVariant_spec (pid : Nat) (s : DB) (v : SVariant) (h : DBOk s) :
    DBOk (processVariant noTri pid s v) ∧
    s.nextId ≤ (processVariant noTri pid s v).nextId ∧
    (processVariant noTri pid s v).products = s.products ∧
    (processVariant noTri pid s v).product_images = s.product_images ∧
    (processVariant noTri pid s v).orders = s.orders ∧
    (processVariant noTri pid s v).customers = s.customers ∧
    (processVariant noTri pid s v).addresses = s.addresses ∧
    (processVariant noTri pid s v).line_items = s.line_items ∧
    (∃ ext, keyIdList keyVar (processVariant noTri pid s v).product_variants =
        keyIdList keyVar s.product_variants ++ ext ∧
        ∀ p ∈ ext, v.id ≠ "" ∧ p.1 = v.id) ∧
    (v.id ≠ "" → v.id ∈ keysOf keyVar (processVariant noTri pid s v).product_variants) ∧
    ((v.id ≠ "" → v.id ∈ keysOf keyVar s.product_variants) →
      keyIdList keyVar (processVariant noTri pid s v).product_variants =
        keyIdList keyVar s.product_variants ∧
      (processVariant noTri pid s v).nextId = s.nextId) := by
  obtain ⟨hp, hv, hi, ho, hc, ha, hl⟩ := h
  by_cases hid : v.id = ""
  · simp only [processVariant, if_pos hid]
    exact ⟨⟨hp, hv, hi, ho, hc, ha, hl⟩, le_refl _, trivial, trivial, trivial, trivial, trivial,
      trivial, ⟨[], by simp, by simp⟩, fun hcon => absurd hid hcon,
      fun _ => by constructor <;> trivial⟩
  · obtain ⟨⟨ext, hext, hextP⟩, hcov, hstab, hmono, _, _, _⟩ :=
      upsertRow_spec mergeVariant keyVar (formatVariant pid v) s.product_variants s.nextId
        hv.2.1 (fun _ => rfl)
    have hto := @upsertRow_tableOk _ _ _ mergeVariant keyVar (formatVariant pid v) _ _ hv
      (fun _ => rfl)
    simp only [processVariant, if_neg hid, softUpsert_noTri]
    refine ⟨⟨hp.mono hmono, hto, hi.mono hmono, ho.mono hmono, hc.mono hmono, ha.mono hmono,
        hl.mono hmono⟩, hmono, trivial, trivial, trivial, trivial, trivial, trivial, ?_, ?_, ?_⟩
    · exact ⟨ext, hext, fun p hp' => ⟨hid, (hextP p hp').1⟩⟩
    · intro _
      exact hcov
    · intro hmem
      exact hstab (hmem hid)

theorem processImage_spec (pid : Nat) (s : DB) (im : SImage) (h : DBOk s) :
    DBOk (processImage noTri pid s im) ∧
    s.nextId ≤ (processImage noTri pid s im).nextId ∧
    (processImage noTri pid s im).products = s.products ∧
    (processImage noTri pid s im).product_variants = s.product_variants ∧
    (processImage noTri pid s im).orders = s.orders ∧
    (processImage noTri pid s im).customers = s.customers ∧
    (processImage noTri pid s im).addresses = s.addresses ∧
    (processImage noTri pid s im).line_items = s.line_items ∧
    (∃ ext, keyIdList keyImg (processImage noTri pid s im).product_images =
        keyIdList keyImg s.product_images ++ ext ∧
        ∀ p ∈ ext, im.id ≠ "" ∧ p.1 = im.id) ∧
    (im.id ≠ "" → im.id ∈ keysOf keyImg (processImage noTri pid s im).product_images) ∧
    ((im.id ≠ "" → im.id ∈ keysOf keyImg s.product_images) →
      keyIdList keyImg (processImage noTri pid s im).product_images =
        keyIdList keyImg s.product_images ∧
      (processImage noTri pid s im).nextId = s.nextId) := by
  obtain ⟨hp, hv, hi, ho, hc, ha, hl⟩ := h
  by_cases hid : im.id = ""
  · simp only [processImage, if_pos hid]
    exact ⟨⟨hp, hv, hi, ho, hc, ha, hl⟩, le_refl _, trivial, trivial, trivial, trivial, trivial,
      trivial, ⟨[], by simp, by simp⟩, fun hcon => absurd hid hcon,
      fun _ => by constructor <;> trivial⟩
  · obtain ⟨⟨ext, hext, hextP⟩, hcov, hstab, hmono, _, _, _⟩ :=
      upsertRow_spec mergeImage keyImg (formatImage pid im) s.product_images s.nextId
        hi.2.1 (fun _ => rfl)
    have hto := @upsertRow_tableOk _ _ _ mergeImage keyImg (formatImage pid im) _ _ hi
      (fun _ => rfl)
    simp only [processImage, if_neg hid, softUpsert_noTri]
    refine ⟨⟨hp.mono hmono, hv.mono hmono, hto, ho.mono hmono, hc.mono hmono, ha.mono hmono,
        hl.mono hmono⟩, hmono, trivial, trivial, trivial, trivial, trivial, trivial, ?_, ?_, ?_⟩
    · exact ⟨ext, hext, fun p hp' => ⟨hid, (hextP p hp').1⟩⟩
    · intro _
      exact hcov
    · intro hmem
      exact hstab (hmem hid)

theorem processVariantsFrom_spec (pid : Nat) (vs : List SVariant) : ∀ (i : Nat) (s : DB),
    DBOk s →
    DBOk (processVariantsFrom (fun _ => noTri) pid i vs s) ∧
    s.nextId ≤ (processVariantsFrom (fun _ => noTri) pid i vs s).nextId ∧
    (processVariantsFrom (fun _ => noTri) pid i vs s).products = s.products ∧
    (processVariantsFrom (fun _ => noTri) pid i vs s).product_images = s.product_images ∧
    (processVariantsFrom (fun _ => noTri) pid i vs s).orders = s.orders ∧
    (processVariantsFrom (fun _ => noTri) pid i vs s).customers = s.customers ∧
    (processVariantsFrom (fun _ => noTri) pid i vs s).addresses = s.addresses ∧
    (processVariantsFrom (fun _ => noTri) pid i vs s).line_items = s.line_items ∧
    (∃ ext, keyIdList keyVar (processVariantsFrom (fun _ => noTri) pid i vs s).product_variants =
        keyIdList keyVar s.product_variants ++ ext ∧
        ∀ p ∈ ext, ∃ v ∈ vs, v.id ≠ "" ∧ p.1 = v.id) ∧
    (∀ v ∈ vs, v.id ≠ "" →
      v.id ∈ keysOf keyVar (processVariantsFrom (fun _ => noTri) pid i vs s).product_variants) ∧
    ((∀ v ∈ vs, v.id ≠ "" → v.id ∈ keysOf keyVar s.product_variants) →
      keyIdList keyVar (processVariantsFrom (fun _ => noTri) pid i vs s).product_variants =
        keyIdList keyVar s.product_variants ∧
      (processVariantsFrom (fun _ => noTri) pid i vs s).nextId = s.nextId) := by
  induction vs with
  | nil =>
    intro i s h
    exact ⟨h, le_refl _, rfl, rfl, rfl, rfl, rfl, rfl,
      ⟨[], by simp [processVariantsFrom], by simp⟩,
      fun v hv => absurd hv (List.not_mem_nil v), fun _ => ⟨rfl, rfl⟩⟩
  | cons v vs ih =>
    intro i s h
    obtain ⟨h1ok, h1mono, h1p, h1i, h1o, h1c, h1a, h1l, ⟨ext1, hext1, hext1P⟩, h1cov, h1stab⟩ :=
      processVariant_spec pid s v h
    obtain ⟨h2ok, h2mono, h2p, h2i, h2o, h2c, h2a, h2l, ⟨ext2, hext2, hext2P⟩, h2cov, h2stab⟩ :=
      ih (i + 1) (processVariant noTri pid s v) h1ok
    have hstep : processVariantsFrom (fun _ => noTri) pid i (v :: vs) s =
        processVariantsFrom (fun _ => noTri) pid (i + 1) vs (processVariant noTri pid s v) := rfl
    rw [hstep]
    refine ⟨h2ok, le_trans h1mono h2mono, h2p.trans h1p, h2i.trans h1i, h2o.trans h1o,
      h2c.trans h1c, h2a.trans h1a, h2l.trans h1l, ?_, ?_, ?_⟩
    · refine ⟨ext1 ++ ext2, by rw [hext2, hext1, List.append_assoc], ?_⟩
      intro p hp
      rcases List.mem_append.1 hp with hp1 | hp2
      · obtain ⟨hne, hk⟩ := hext1P p hp1
        exact ⟨v, List.mem_cons_self v vs, hne, hk⟩
      · obtain ⟨v', hv', hne, hk⟩ := hext2P p hp2
        exact ⟨v', List.mem_cons_of_mem v hv', hne, hk⟩
    · intro v' hv' hne
      rcases List.mem_cons.1 hv' with he | hm
      · subst he
        exact keys_subset_of_ext hext2 (h1cov hne)
      · exact h2cov v' hm hne
    · intro hmem
      obtain ⟨hk1, hn1⟩ := h1stab (fun hne => hmem v (List.mem_cons_self v vs) hne)
      have hkeys1 : keysOf keyVar (processVariant noTri pid s v).product_variants =
          keysOf keyVar s.product_variants := keys_eq_of_kil_eq hk1
      obtain ⟨hk2, hn2⟩ := h2stab (by
        intro v' hv' hne
        rw [hkeys1]
        exact hmem v' (List.mem_cons_of_mem v hv') hne)
      exact ⟨hk2.trans hk1, hn2.trans hn1⟩

theorem processImagesFrom_spec (pid : Nat) (ims : List SImage) : ∀ (i : Nat) (s : DB),
    DBOk s →
    DBOk (processImagesFrom (fun _ => noTri) pid i ims s) ∧
    s.nextId ≤ (processImagesFrom (fun _ => noTri) pid i ims s).nextId ∧
    (processImagesFrom (fun _ => noTri) pid i ims s).products = s.products ∧
    (processImagesFrom (fun _ => noTri) pid i ims s).product_variants = s.product_variants ∧
    (processImagesFrom (fun _ => noTri) pid i ims s).orders = s.orders ∧
    (processImagesFrom (fun _ => noTri) pid i ims s).customers = s.customers ∧
    (processImagesFrom (fun _ => noTri) pid i ims s).addresses = s.addresses ∧
    (processImagesFrom (fun _ => noTri) pid i ims s).line_items = s.line_items ∧
    (∃ ext, keyIdList keyImg (processImagesFrom (fun _ => noTri) pid i ims s).product_images =
        keyIdList keyImg s.product_images ++ ext ∧
        ∀ p ∈ ext, ∃ im ∈ ims, im.id ≠ "" ∧ p.1 = im.id) ∧
    (∀ im ∈ ims, im.id ≠ "" →
      im.id ∈ keysOf keyImg (processImagesFrom (fun _ => noTri) pid i ims s).product_images) ∧
    ((∀ im ∈ ims, im.id ≠ "" → im.id ∈ keysOf keyImg s.product_images) →
      keyIdList keyImg (processImagesFrom (fun _ => noTri) pid i ims s).product_images =
        keyIdList keyImg s.product_images ∧
      (processImagesFrom (fun _ => noTri) pid i ims s).nextId = s.nextId) := by
  induction ims with
  | nil =>
    intro i s h
    exact ⟨h, le_refl _, rfl, rfl, rfl, rfl, rfl, rfl,
      ⟨[], by simp [processImagesFrom], by simp⟩,
      fun im him => absurd him (List.not_mem_nil im), fun _ => ⟨rfl, rfl⟩⟩
  | cons im ims ih =>
    intro i s h
    obtain ⟨h1ok, h1mono, h1p, h1v, h1o, h1c, h1a, h1l, ⟨ext1, hext1, hext1P⟩, h1cov, h1stab⟩ :=
      processImage_spec pid s im h
    obtain ⟨h2ok, h2mono, h2p, h2v, h2o, h2c, h2a, h2l, ⟨ext2, hext2, hext2P⟩, h2cov, h2stab⟩ :=
      ih (i + 1) (processImage noTri pid s im) h1ok
    have hstep : processImagesFrom (fun _ => noTri) pid i (im :: ims) s =
        processImagesFrom (fun _ => noTri) pid (i + 1) ims (processImage noTri pid s im) := rfl
    rw [hstep]
    refine ⟨h2ok, le_trans h1mono h2mono, h2p.trans h1p, h2v.trans h1v, h2o.trans h1o,
      h2c.trans h1c, h2a.trans h1a, h2l.trans h1l, ?_, ?_, ?_⟩
    · refine ⟨ext1 ++ ext2, by rw [hext2, hext1, List.append_assoc], ?_⟩
      intro p hp
      rcases List.mem_append.1 hp with hp1 | hp2
      · obtain ⟨hne, hk⟩ := hext1P p hp1
        exact ⟨im, List.mem_cons_self im ims, hne, hk⟩
      · obtain ⟨im', him', hne, hk⟩ := hext2P p hp2
        exact ⟨im', List.mem_cons_of_mem im him', hne, hk⟩
    · intro im' him' hne
      rcases List.mem_cons.1 him' with he | hm
      · subst he
        exact keys_subset_of_ext hext2 (h1cov hne)
      · exact h2cov im' hm hne
    · intro hmem
      obtain ⟨hk1, hn1⟩ := h1stab (fun hne => hmem im (List.mem_cons_self im ims) hne)
      have hkeys1 : keysOf keyImg (processImage noTri pid s im).product_images =
          keysOf keyImg s.product_images := keys_eq_of_kil_eq hk1
      obtain ⟨hk2, hn2⟩ := h2stab (by
        intro im' him' hne
        rw [hkeys1]
        exact hmem im' (List.mem_cons_of_mem im him') hne)
      exact ⟨hk2.trans hk1, hn2.trans hn1⟩

theorem processProductChildren_eq (e : ProductErrs) (p : SProduct) (pid : Nat) (s : DB) :
    processProductChildren e p pid s =
      processImagesFrom e.img pid 0 p.images (processVariantsFrom e.var pid 0 p.variants s) := by
  unfold processProductChildren
  by_cases hv : p.variants.length > 0
  · by_cases hi : p.images.length > 0
    · simp [hv, hi]
    · have him : p.images = [] := List.eq_nil_of_length_eq_zero (by omega)
      simp [hv, hi, him, processImagesFrom]
  · have hvn : p.variants = [] := List.eq_nil_of_length_eq_zero (by omega)
    by_cases hi : p.images.length > 0
    · simp [hv, hi, hvn, processVariantsFrom]
    · have him : p.images = [] := List.eq_nil_of_length_eq_zero (by omega)
      simp [hv, hi, hvn, him, processVariantsFrom, processImagesFrom]

theorem processProductChildren_spec (p : SProduct) (pid : Nat) (s : DB) (h : DBOk s) :
    DBOk (processProductChildren noProductErrs p pid s) ∧
    s.nextId ≤ (processProductChildren noProductErrs p pid s).nextId ∧
    (processProductChildren noProductErrs p pid s).products = s.products ∧
    (processProductChildren noProductErrs p pid s).orders = s.orders ∧
    (processProductChildren noProductErrs p pid s).customers = s.customers ∧
    (processProductChildren noProductErrs p pid s).addresses = s.addresses ∧
    (processProductChildren noProductErrs p pid s).line_items = s.line_items ∧
    (∃ ext, keyIdList keyVar (processProductChildren noProductErrs p pid s).product_variants =
        keyIdList keyVar s.product_variants ++ ext ∧
        ∀ q ∈ ext, ∃ v ∈ p.variants, v.id ≠ "" ∧ q.1 = v.id) ∧
    (∀ v ∈ p.variants, v.id ≠ "" →
      v.id ∈ keysOf keyVar (processProductChildren noProductErrs p pid s).product_variants) ∧
    (∃ ext, keyIdList keyImg (processProductChildren noProductErrs p pid s).product_images =
        keyIdList keyImg s.product_images ++ ext ∧
        ∀ q ∈ ext, ∃ im ∈ p.images, im.id ≠ "" ∧ q.1 = im.id) ∧
    (∀ im ∈ p.images, im.id ≠ "" →
      im.id ∈ keysOf keyImg (processProductChildren noProductErrs p pid s).product_images) ∧
    ((∀ v ∈ p.variants, v.id ≠ "" → v.id ∈ keysOf keyVar s.product_variants) →
      (∀ im ∈ p.images, im.id ≠ "" → im.id ∈ keysOf keyImg s.product_images) →
      keyIdList keyVar (processProductChildren noProductErrs p pid s).product_variants =
        keyIdList keyVar s.product_variants ∧
      keyIdList keyImg (processProductChildren noProductErrs p pid s).product_images =
        keyIdList keyImg s.product_images ∧
      (processProductChildren noProductErrs p pid s).nextId = s.nextId) := by
  have heq : processProductChildren noProductErrs p pid s =
      processImagesFrom (fun _ => noTri) pid 0 p.images
        (processVariantsFrom (fun _ => noTri) pid 0 p.variants s) :=
    processProductChildren_eq noProductErrs p pid s
  rw [heq]
  obtain ⟨h1ok, h1mono, h1p, h1i, h1o, h1c, h1a, h1l, ⟨ext1, hext1, hext1P⟩, h1cov, h1stab⟩ :=
    processVariantsFrom_spec pid p.variants 0 s h
  set s1 := processVariantsFrom (fun _ => noTri) pid 0 p.variants s with hs1
  obtain ⟨h2ok, h2mono, h2p, h2v, h2o, h2c, h2a, h2l, ⟨ext2, hext2, hext2P⟩, h2cov, h2stab⟩ :=
    processImagesFrom_spec pid p.images 0 s1 h1ok
  refine ⟨h2ok, le_trans h1mono h2mono, h2p.trans h1p, h2o.trans h1o, h2c.trans h1c,
    h2a.trans h1a, h2l.trans h1l, ?_, ?_, ?_, ?_, ?_⟩
  · exact ⟨ext1, h2v ▸ hext1, hext1P⟩
  · intro v hv hne
    rw [h2v]
    exact h1cov v hv hne
  · exact ⟨ext2, by rw [hext2, h1i], hext2P⟩
  · intro im him hne
    exact h2cov im him hne
  · intro hvmem himem
    obtain ⟨hk1, hn1⟩ := h1stab hvmem
    obtain ⟨hk2, hn2⟩ := h2stab (by
      intro im him hne
      rw [h1i]
      exact himem im him hne)
    exact ⟨h2v ▸ hk1, hk2.trans (congrArg (keyIdList keyImg) h1i), hn2.trans hn1⟩

theorem processProduct_spec (syncedAt : String) (s : DB) (p : SProduct) (h : DBOk s) :
    DBOk (processProduct noProductErrs syncedAt s p) ∧
    s.nextId ≤ (processProduct noProductErrs syncedAt s p).nextId ∧
    (processProduct noProductErrs syncedAt s p).orders = s.orders ∧
    (processProduct noProductErrs syncedAt s p).customers = s.customers ∧
    (processProduct noProductErrs syncedAt s p).addresses = s.addresses ∧
    (processProduct noProductErrs syncedAt s p).line_items = s.line_items ∧
    (∃ ext, keyIdList keyProd (processProduct noProductErrs syncedAt s p).products =
        keyIdList keyProd s.products ++ ext ∧
        ∀ q ∈ ext, productValid p ∧ q.1 = p.id) ∧
    (productValid p → p.id ∈ keysOf keyProd (processProduct noProductErrs syncedAt s p).products) ∧
    (∃ ext, keyIdList keyVar (processProduct noProductErrs syncedAt s p).product_variants =
        keyIdList keyVar s.product_variants ++ ext ∧
        ∀ q ∈ ext, productValid p ∧ ∃ v ∈ p.variants, v.id ≠ "" ∧ q.1 = v.id) ∧
    (productValid p → ∀ v ∈ p.variants, v.id ≠ "" →
      v.id ∈ keysOf keyVar (processProduct noProductErrs syncedAt s p).product_variants) ∧
    (∃ ext, keyIdList keyImg (processProduct noProductErrs syncedAt s p).product_images =
        keyIdList keyImg s.product_images ++ ext ∧
        ∀ q ∈ ext, productValid p ∧ ∃ im ∈ p.images, im.id ≠ "" ∧ q.1 = im.id) ∧
    (productValid p → ∀ im ∈ p.images, im.id ≠ "" →
      im.id ∈ keysOf keyImg (processProduct noProductErrs syncedAt s p).product_images) ∧
    ((productValid p →
        p.id ∈ keysOf keyProd s.products ∧
        (∀ v ∈ p.variants, v.id ≠ "" → v.id ∈ keysOf keyVar s.product_variants) ∧
        (∀ im ∈ p.images, im.id ≠ "" → im.id ∈ keysOf keyImg s.product_images)) →
      keyIdList keyProd (processProduct noProductErrs syncedAt s p).products =
        keyIdList keyProd s.products ∧
      keyIdList keyVar (processProduct noProductErrs syncedAt s p).product_variants =
        keyIdList keyVar s.product_variants ∧
      keyIdList keyImg (processProduct noProductErrs syncedAt s p).product_images =
        keyIdList keyImg s.product_images ∧
      (processProduct noProductErrs syncedAt s p).nextId = s.nextId) := by
  by_cases hval : p.id = "" ∨ p.title = ""
  · have hred : processProduct noProductErrs syncedAt s p = s := by
      simp [processProduct, hval]
    rw [hred]
    have hnv : ¬ productValid p := fun hc => hc hval
    exact ⟨h, le_refl _, rfl, rfl, rfl, rfl, ⟨[], by simp, by simp⟩,
      fun hc => absurd hc hnv, ⟨[], by simp, by simp⟩, fun hc => absurd hc hnv,
      ⟨[], by simp, by simp⟩, fun hc => absurd hc hnv, fun _ => ⟨rfl, rfl, rfl, rfl⟩⟩
  · have hvalP : productValid p := hval
    have hred : processProduct noProductErrs syncedAt s p =
        processProductChildren noProductErrs p
          (upsertRow mergeProduct keyProd (formatProduct syncedAt p) s.products s.nextId).2.1
          { s with
            products :=
              (upsertRow mergeProduct keyProd (formatProduct syncedAt p) s.products s.nextId).1,
            nextId :=
              (upsertRow mergeProduct keyProd (formatProduct syncedAt p) s.products
                s.nextId).2.2 } := by
      simp [processProduct, hval, noProductErrs, noTri, strictUpsert_noErr]
    obtain ⟨⟨ext0, hext0, hext0P⟩, hcov0, hstab0, hmono0, _, _, _⟩ :=
      upsertRow_spec mergeProduct keyProd (formatProduct syncedAt p) s.products s.nextId
        h.1.2.1 (fun _ => rfl)
    have hto0 := @upsertRow_tableOk _ _ _ mergeProduct keyProd (formatProduct syncedAt p) _ _
      h.1 (fun _ => rfl)
    set u := upsertRow mergeProduct keyProd (formatProduct syncedAt p) s.products s.nextId
      with hu
    set s1 : DB := { s with products := u.1, nextId := u.2.2 } with hs1
    have h1ok : DBOk s1 := ⟨hto0, h.2.1.mono hmono0, h.2.2.1.mono hmono0, h.2.2.2.1.mono hmono0,
      h.2.2.2.2.1.mono hmono0, h.2.2.2.2.2.1.mono hmono0, h.2.2.2.2.2.2.mono hmono0⟩
    obtain ⟨h2ok, h2mono, h2p, h2o, h2c, h2a, h2l, ⟨ext2, hext2, hext2P⟩, h2cov,
      ⟨ext3, hext3, hext3P⟩, h3cov, h2stab⟩ := processProductChildren_spec p u.2.1 s1 h1ok
    rw [hred]
    refine ⟨h2ok, le_trans hmono0 h2mono, h2o, h2c, h2a, h2l, ?_, ?_, ?_, ?_, ?_, ?_, ?_⟩
    · exact ⟨ext0, by rw [h2p]; exact hext0, fun q hq => ⟨hvalP, (hext0P q hq).1⟩⟩
    · intro _
      rw [h2p]
      exact hcov0
    · exact ⟨ext2, hext2, fun q hq => ⟨hvalP, hext2P q hq⟩⟩
    · intro _ v hv hne
      exact h2cov v hv hne
    · exact ⟨ext3, hext3, fun q hq => ⟨hvalP, hext3P q hq⟩⟩
    · intro _ im him hne
      exact h3cov im him hne
    · intro hst
      obtain ⟨hpm, hvm, him⟩ := hst hvalP
      obtain ⟨hk0, hn0⟩ := hstab0 hpm
      obtain ⟨hkv, hki, hnn⟩ := h2stab hvm him
      refine ⟨?_, hkv, hki, ?_⟩
      · rw [h2p]
        exact hk0
      · rw [hnn]
        exact hn0

theorem processProductsFrom_spec (syncedAt : String) (ps : List SProduct) : ∀ (i : Nat) (s : DB),
    DBOk s →
    DBOk (processProductsFrom (fun _ => noProductErrs) syncedAt i ps s) ∧
    s.nextId ≤ (processProductsFrom (fun _ => noProductErrs) syncedAt i ps s).nextId ∧
    (processProductsFrom (fun _ => noProductErrs) syncedAt i ps s).orders = s.orders ∧
    (processProductsFrom (fun _ => noProductErrs) syncedAt i ps s).customers = s.customers ∧
    (processProductsFrom (fun _ => noProductErrs) syncedAt i ps s).addresses = s.addresses ∧
    (processProductsFrom (fun _ => noProductErrs) syncedAt i ps s).line_items = s.line_items ∧
    (∃ ext, keyIdList keyProd
        (processProductsFrom (fun _ => noProductErrs) syncedAt i ps s).products =
        keyIdList keyProd s.products ++ ext ∧
        ∀ q ∈ ext, ∃ p ∈ ps, productValid p ∧ q.1 = p.id) ∧
    (∀ p ∈ ps, productValid p →
      p.id ∈ keysOf keyProd (processProductsFrom (fun _ => noProductErrs) syncedAt i ps s).products) ∧
    (∃ ext, keyIdList keyVar
        (processProductsFrom (fun _ => noProductErrs) syncedAt i ps s).product_variants =
        keyIdList keyVar s.product_variants ++ ext ∧
        ∀ q ∈ ext, ∃ p ∈ ps, productValid p ∧ ∃ v ∈ p.variants, v.id ≠ "" ∧ q.1 = v.id) ∧
    (∀ p ∈ ps, productValid p → ∀ v ∈ p.variants, v.id ≠ "" →
      v.id ∈ keysOf keyVar
        (processProductsFrom (fun _ => noProductErrs) syncedAt i ps s).product_variants) ∧
    (∃ ext, keyIdList keyImg
        (processProductsFrom (fun _ => noProductErrs) syncedAt i ps s).product_images =
        keyIdList keyImg s.product_images ++ ext ∧
        ∀ q ∈ ext, ∃ p ∈ ps, productValid p ∧ ∃ im ∈ p.images, im.id ≠ "" ∧ q.1 = im.id) ∧
    (∀ p ∈ ps, productValid p → ∀ im ∈ p.images, im.id ≠ "" →
      im.id ∈ keysOf keyImg
        (processProductsFrom (fun _ => noProductErrs) syncedAt i ps s).product_images) ∧
    ((∀ p ∈ ps, productValid p →
        p.id ∈ keysOf keyProd s.products ∧
        (∀ v ∈ p.variants, v.id ≠ "" → v.id ∈ keysOf keyVar s.product_variants) ∧
        (∀ im ∈ p.images, im.id ≠ "" → im.id ∈ keysOf keyImg s.product_images)) →
      keyIdList keyProd (processProductsFrom (fun _ => noProductErrs) syncedAt i ps s).products =
        keyIdList keyProd s.products ∧
      keyIdList keyVar
        (processProductsFrom (fun _ => noProductErrs) syncedAt i ps s).product_variants =
        keyIdList keyVar s.product_variants ∧
      keyIdList keyImg
        (processProductsFrom (fun _ => noProductErrs) syncedAt i ps s).product_images =
        keyIdList keyImg s.product_images ∧
      (processProductsFrom (fun _ => noProductErrs) syncedAt i ps s).nextId = s.nextId) := by
  induction ps with
  | nil =>
    intro i s h
    exact ⟨h, le_refl _, rfl, rfl, rfl, rfl,
      ⟨[], by simp [processProductsFrom], by simp⟩, fun p hp => absurd hp (List.not_mem_nil p),
      ⟨[], by simp [processProductsFrom], by simp⟩, fun p hp => absurd hp (List.not_mem_nil p),
      ⟨[], by simp [processProductsFrom], by simp⟩, fun p hp => absurd hp (List.not_mem_nil p),
      fun _ => ⟨rfl, rfl, rfl, rfl⟩⟩
  | cons p ps ih =>
    intro i s h
    obtain ⟨h1ok, h1mono, h1o, h1c, h1a, h1l, ⟨extp1, hextp1, hextp1P⟩, h1covp,
      ⟨extv1, hextv1, hextv1P⟩, h1covv, ⟨exti1, hexti1, hexti1P⟩, h1covi, h1stab⟩ :=
      processProduct_spec syncedAt s p h
    obtain ⟨h2ok, h2mono, h2o, h2c, h2a, h2l, ⟨extp2, hextp2, hextp2P⟩, h2covp,
      ⟨extv2, hextv2, hextv2P⟩, h2covv, ⟨exti2, hexti2, hexti2P⟩, h2covi, h2stab⟩ :=
      ih (i + 1) (processProduct noProductErrs syncedAt s p) h1ok
    have hstep : processProductsFrom (fun _ => noProductErrs) syncedAt i (p :: ps) s =
        processProductsFrom (fun _ => noProductErrs) syncedAt (i + 1) ps
          (processProduct noProductErrs syncedAt s p) := rfl
    rw [hstep]
    refine ⟨h2ok, le_trans h1mono h2mono, h2o.trans h1o, h2c.trans h1c, h2a.trans h1a,
      h2l.trans h1l, ?_, ?_, ?_, ?_, ?_, ?_, ?_⟩
    · refine ⟨extp1 ++ extp2, by rw [hextp2, hextp1, List.append_assoc], ?_⟩
      intro q hq
      rcases List.mem_append.1 hq with h1 | h2
      · obtain ⟨hv, hk⟩ := hextp1P q h1
        exact ⟨p, List.mem_cons_self p ps, hv, hk⟩
      · obtain ⟨p', hp', hv, hk⟩ := hextp2P q h2
        exact ⟨p', List.mem_cons_of_mem p hp', hv, hk⟩
    · intro p' hp' hv
      rcases List.mem_cons.1 hp' with he | hm
      · subst he
        exact keys_subset_of_ext hextp2 (h1covp hv)
      · exact h2covp p' hm hv
    · refine ⟨extv1 ++ extv2, by rw [hextv2, hextv1, List.append_assoc], ?_⟩
      intro q hq
      rcases List.mem_append.1 hq with h1 | h2
      · obtain ⟨hv, hk⟩ := hextv1P q h1
        exact ⟨p, List.mem_cons_self p ps, hv, hk⟩
      · obtain ⟨p', hp', hv, hk⟩ := hextv2P q h2
        exact ⟨p', List.mem_cons_of_mem p hp', hv, hk⟩
    · intro p' hp' hv v hvv hne
      rcases List.mem_cons.1 hp' with he | hm
      · subst he
        exact keys_subset_of_ext hextv2 (h1covv hv v hvv hne)
      · exact h2covv p' hm hv v hvv hne
    · refine ⟨exti1 ++ exti2, by rw [hexti2, hexti1, List.append_assoc], ?_⟩
      intro q hq
      rcases List.mem_append.1 hq with h1 | h2
      · obtain ⟨hv, hk⟩ := hexti1P q h1
        exact ⟨p, List.mem_cons_self p ps, hv, hk⟩
      · obtain ⟨p', hp', hv, hk⟩ := hexti2P q h2
        exact ⟨p', List.mem_cons_of_mem p hp', hv, hk⟩
    · intro p' hp' hv im him hne
      rcases List.mem_cons.1 hp' with he | hm
      · subst he
        exact keys_subset_of_ext hexti2 (h1covi hv im him hne)
      · exact h2covi p' hm hv im him hne
    · intro hmem
      obtain ⟨hkp1, hkv1, hki1, hn1⟩ :=
        h1stab (fun hv => hmem p (List.mem_cons_self p ps) hv)
      obtain ⟨hkp2, hkv2, hki2, hn2⟩ := h2stab (by
        intro p' hp' hv
        obtain ⟨hm1, hm2, hm3⟩ := hmem p' (List.mem_cons_of_mem p hp') hv
        refine ⟨?_, ?_, ?_⟩
        · rw [keys_eq_of_kil_eq hkp1]
          exact hm1
        · intro v hvv hne
          rw [keys_eq_of_kil_eq hkv1]
          exact hm2 v hvv hne
        · intro im him hne
          rw [keys_eq_of_kil_eq hki1]
          exact hm3 im him hne)
      exact ⟨hkp2.trans hkp1, hkv2.trans hkv1, hki2.trans hki1, hn2.trans hn1⟩

/-! ## Per-step facts about the orders sync processing -/

theorem processCustomer_spec (c : SCustomer) (s : DB) (h : DBOk s) :
    DBOk (processCustomer noTri c s).1 ∧
    s.nextId ≤ (processCustomer noTri c s).1.nextId ∧
    (processCustomer noTri c s).1.products = s.products ∧
    (processCustomer noTri c s).1.product_variants = s.product_variants ∧
    (processCustomer noTri c s).1.product_images = s.product_images ∧
    (processCustomer noTri c s).1.orders = s.orders ∧
    (processCustomer noTri c s).1.addresses = s.addresses ∧
    (processCustomer noTri c s).1.line_items = s.line_items ∧
    (∃ ext, keyIdList keyCust (processCustomer noTri c s).1.customers =
        keyIdList keyCust s.customers ++ ext ∧
        ∀ q ∈ ext, q.1 = c.id) ∧
    c.id ∈ keysOf keyCust (processCustomer noTri c s).1.customers ∧
    (∃ i, (processCustomer noTri c s).2 = some i) ∧
    (c.id ∈ keysOf keyCust s.customers →
      keyIdList keyCust (processCustomer noTri c s).1.customers =
        keyIdList keyCust s.customers ∧
      (processCustomer noTri c s).1.nextId = s.nextId) := by
  obtain ⟨hp, hv, hi, ho, hc, ha, hl⟩ := h
  have hred : processCustomer noTri c s =
      ({ s with
          customers := (upsertRow mergeCustomer keyCust (formatCustomer c) s.customers
            s.nextId).1,
          nextId := (upsertRow mergeCustomer keyCust (formatCustomer c) s.customers
            s.nextId).2.2 },
        some (upsertRow mergeCustomer keyCust (formatCustomer c) s.customers s.nextId).2.1) := by
    simp [processCustomer, noTri, strictUpsert_noErr]
  obtain ⟨⟨ext, hext, hextP⟩, hcov, hstab, hmono, _, _, _⟩ :=
    upsertRow_spec mergeCustomer keyCust (formatCustomer c) s.customers s.nextId hc.2.1
      (fun _ => rfl)
  have hto := @upsertRow_tableOk _ _ _ mergeCustomer keyCust (formatCustomer c) _ _ hc
    (fun _ => rfl)
  rw [hred]
  exact ⟨⟨hp.mono hmono, hv.mono hmono, hi.mono hmono, ho.mono hmono, hto, ha.mono hmono,
      hl.mono hmono⟩, hmono, rfl, rfl, rfl, rfl, rfl, rfl,
    ⟨ext, hext, fun q hq => (hextP q hq).1⟩, hcov, ⟨_, rfl⟩, hstab⟩

theorem processAddress_spec (atype : String) (oid cid : Nat) (a : SAddress) (s : DB)
    (h : DBOk s) :
    DBOk (processAddress noTri atype oid cid a s) ∧
    s.nextId ≤ (processAddress noTri atype oid cid a s).nextId ∧
    (processAddress noTri atype oid cid a s).products = s.products ∧
    (processAddress noTri atype oid cid a s).product_variants = s.product_variants ∧
    (processAddress noTri atype oid cid a s).product_images = s.product_images ∧
    (processAddress noTri atype oid cid a s).orders = s.orders ∧
    (processAddress noTri atype oid cid a s).customers = s.customers ∧
    (processAddress noTri atype oid cid a s).line_items = s.line_items ∧
    (∃ ext, keyIdList keyAddr (processAddress noTri atype oid cid a s).addresses =
        keyIdList keyAddr s.addresses ++ ext ∧
        ∀ q ∈ ext, q.1 = (oid, atype)) ∧
    (oid, atype) ∈ keysOf keyAddr (processAddress noTri atype oid cid a s).addresses ∧
    ((oid, atype) ∈ keysOf keyAddr s.addresses →
      keyIdList keyAddr (processAddress noTri atype oid cid a s).addresses =
        keyIdList keyAddr s.addresses ∧
      (processAddress noTri atype oid cid a s).nextId = s.nextId) := by
  obtain ⟨hp, hv, hi, ho, hc, ha, hl⟩ := h
  obtain ⟨⟨ext, hext, hextP⟩, hcov, hstab, hmono, _, _, _⟩ :=
    upsertRow_spec mergeAddress keyAddr (formatAddress oid cid atype a) s.addresses s.nextId
      ha.2.1 (fun _ => rfl)
  have hto := @upsertRow_tableOk _ _ _ mergeAddress keyAddr (formatAddress oid cid atype a) _ _
    ha (fun _ => rfl)
  simp only [processAddress, softUpsert_noTri]
  exact ⟨⟨hp.mono hmono, hv.mono hmono, hi.mono hmono, ho.mono hmono, hc.mono hmono, hto,
      hl.mono hmono⟩, hmono, trivial, trivial, trivial, trivial, trivial, trivial,
    ⟨ext, hext, fun q hq => (hextP q hq).1⟩, hcov, hstab⟩

theorem processAddressOpt_spec (atype : String) (oid cid : Nat) (oa : Option SAddress)
    (s : DB) (h : DBOk s) :
    DBOk (processAddressOpt noTri atype oid cid oa s) ∧
    s.nextId ≤ (processAddressOpt noTri atype oid cid oa s).nextId ∧
    (processAddressOpt noTri atype oid cid oa s).products = s.products ∧
    (processAddressOpt noTri atype oid cid oa s).product_variants = s.product_variants ∧
    (processAddressOpt noTri atype oid cid oa s).product_images = s.product_images ∧
    (processAddressOpt noTri atype oid cid oa s).orders = s.orders ∧
    (processAddressOpt noTri atype oid cid oa s).customers = s.customers ∧
    (processAddressOpt noTri atype oid cid oa s).line_items = s.line_items ∧
    (∃ ext, keyIdList keyAddr (processAddressOpt noTri atype oid cid oa s).addresses =
        keyIdList keyAddr s.addresses ++ ext ∧
        ∀ q ∈ ext, oa.isSome ∧ q.1 = (oid, atype)) ∧
    (oa.isSome →
      (oid, atype) ∈ keysOf keyAddr (processAddressOpt noTri atype oid cid oa s).addresses) ∧
    ((oa.isSome → (oid, atype) ∈ keysOf keyAddr s.addresses) →
      keyIdList keyAddr (processAddressOpt noTri atype oid cid oa s).addresses =
        keyIdList keyAddr s.addresses ∧
      (processAddressOpt noTri atype oid cid oa s).nextId = s.nextId) := by
  cases oa with
  | none =>
    exact ⟨h, le_refl _, rfl, rfl, rfl, rfl, rfl, rfl, ⟨[], by simp [processAddressOpt], by simp⟩,
      fun hc => by simp at hc, fun _ => ⟨rfl, rfl⟩⟩
  | some a =>
    obtain ⟨hok, hmono, hf1, hf2, hf3, hf4, hf5, hf6, ⟨ext, hext, hextP⟩, hcov, hstab⟩ :=
      processAddress_spec atype oid cid a s h
    exact ⟨hok, hmono, hf1, hf2, hf3, hf4, hf5, hf6,
      ⟨ext, hext, fun q hq => ⟨rfl, hextP q hq⟩⟩, fun _ => hcov,
      fun hm => hstab (hm rfl)⟩

theorem processLineItem_spec (o : SOrder) (oid : Nat) (s : DB) (li : SLineItem) (h : DBOk s) :
    DBOk (processLineItem noLIErrs o oid s li) ∧
    s.nextId ≤ (processLineItem noLIErrs o oid s li).nextId ∧
    (processLineItem noLIErrs o oid s li).products = s.products ∧
    (processLineItem noLIErrs o oid s li).product_variants = s.product_variants ∧
    (processLineItem noLIErrs o oid s li).product_images = s.product_images ∧
    (processLineItem noLIErrs o oid s li).orders = s.orders ∧
    (processLineItem noLIErrs o oid s li).customers = s.customers ∧
    (processLineItem noLIErrs o oid s li).addresses = s.addresses ∧
    (∃ ext, keyIdList keyLI (processLineItem noLIErrs o oid s li).line_items =
        keyIdList keyLI s.line_items ++ ext ∧
        ∀ q ∈ ext, li.id ≠ "" ∧ q.1 = li.id) ∧
    (li.id ≠ "" → li.id ∈ keysOf keyLI (processLineItem noLIErrs o oid s li).line_items) ∧
    ((li.id ≠ "" → li.id ∈ keysOf keyLI s.line_items) →
      keyIdList keyLI (processLineItem noLIErrs o oid s li).line_items =
        keyIdList keyLI s.line_items ∧
      (processLineItem noLIErrs o oid s li).nextId = s.nextId) := by
  obtain ⟨hp, hv, hi, ho, hc, ha, hl⟩ := h
  by_cases hid : li.id = ""
  · simp only [processLineItem, if_pos hid]
    exact ⟨⟨hp, hv, hi, ho, hc, ha, hl⟩, le_refl _, trivial, trivial, trivial, trivial, trivial,
      trivial, ⟨[], by simp, by simp⟩, fun hcon => absurd hid hcon,
      fun _ => by constructor <;> trivial⟩
  · have hred : processLineItem noLIErrs o oid s li =
        { s with
          line_items := (upsertRow mergeLineItem keyLI
            (formatLineItem oid (liProductId noLIErrs li s) (liVariantId noLIErrs li s) o li)
            s.line_items s.nextId).1,
          nextId := (upsertRow mergeLineItem keyLI
            (formatLineItem oid (liProductId noLIErrs li s) (liVariantId noLIErrs li s) o li)
            s.line_items s.nextId).2.2 } := by
      simp only [processLineItem, if_neg hid]
      rw [show noLIErrs.item = noTri from rfl, softUpsert_noTri]
    obtain ⟨⟨ext, hext, hextP⟩, hcov, hstab, hmono, _, _, _⟩ :=
      upsertRow_spec mergeLineItem keyLI
        (formatLineItem oid (liProductId noLIErrs li s) (liVariantId noLIErrs li s) o li)
        s.line_items s.nextId hl.2.1 (fun _ => rfl)
    have hto := @upsertRow_tableOk _ _ _ mergeLineItem keyLI
      (formatLineItem oid (liProductId noLIErrs li s) (liVariantId noLIErrs li s) o li) _ _ hl
      (fun _ => rfl)
    rw [hred]
    exact ⟨⟨hp.mono hmono, hv.mono hmono, hi.mono hmono, ho.mono hmono, hc.mono hmono,
      ha.mono hmono, hto⟩, hmono, rfl, rfl, rfl, rfl, rfl, rfl,
      ⟨ext, hext, fun q hq => ⟨hid, (hextP q hq).1⟩⟩, fun _ => hcov, fun hm => hstab (hm hid)⟩

theorem processLineItemsFrom_spec (o : SOrder) (oid : Nat) (lis : List SLineItem) :
    ∀ (i : Nat) (s : DB), DBOk s →
    DBOk (processLineItemsFrom (fun _ => noLIErrs) o oid i lis s) ∧
    s.nextId ≤ (processLineItemsFrom (fun _ => noLIErrs) o oid i lis s).nextId ∧
    (processLineItemsFrom (fun _ => noLIErrs) o oid i lis s).products = s.products ∧
    (processLineItemsFrom (fun _ => noLIErrs) o oid i lis s).product_variants =
      s.product_variants ∧
    (processLineItemsFrom (fun _ => noLIErrs) o oid i lis s).product_images = s.product_images ∧
    (processLineItemsFrom (fun _ => noLIErrs) o oid i lis s).orders = s.orders ∧
    (processLineItemsFrom (fun _ => noLIErrs) o oid i lis s).customers = s.customers ∧
    (processLineItemsFrom (fun _ => noLIErrs) o oid i lis s).addresses = s.addresses ∧
    (∃ ext, keyIdList keyLI (processLineItemsFrom (fun _ => noLIErrs) o oid i lis s).line_items =
        keyIdList keyLI s.line_items ++ ext ∧
        ∀ q ∈ ext, ∃ li ∈ lis, li.id ≠ "" ∧ q.1 = li.id) ∧
    (∀ li ∈ lis, li.id ≠ "" →
      li.id ∈ keysOf keyLI (processLineItemsFrom (fun _ => noLIErrs) o oid i lis s).line_items) ∧
    ((∀ li ∈ lis, li.id ≠ "" → li.id ∈ keysOf keyLI s.line_items) →
      keyIdList keyLI (processLineItemsFrom (fun _ => noLIErrs) o oid i lis s).line_items =
        keyIdList keyLI s.line_items ∧
      (processLineItemsFrom (fun _ => noLIErrs) o oid i lis s).nextId = s.nextId) := by
  induction lis with
  | nil =>
    intro i s h
    exact ⟨h, le_refl _, rfl, rfl, rfl, rfl, rfl, rfl,
      ⟨[], by simp [processLineItemsFrom], by simp⟩,
      fun li hli => absurd hli (List.not_mem_nil li), fun _ => ⟨rfl, rfl⟩⟩
  | cons li lis ih =>
    intro i s h
    obtain ⟨h1ok, h1mono, h1p, h1v, h1i, h1o, h1c, h1a, ⟨ext1, hext1, hext1P⟩, h1cov, h1stab⟩ :=
      processLineItem_spec o oid s li h
    obtain ⟨h2ok, h2mono, h2p, h2v, h2i, h2o, h2c, h2a, ⟨ext2, hext2, hext2P⟩, h2cov, h2stab⟩ :=
      ih (i + 1) (processLineItem noLIErrs o oid s li) h1ok
    have hstep : processLineItemsFrom (fun _ => noLIErrs) o oid i (li :: lis) s =
        processLineItemsFrom (fun _ => noLIErrs) o oid (i + 1) lis
          (processLineItem noLIErrs o oid s li) := rfl
    rw [hstep]
    refine ⟨h2ok, le_trans h1mono h2mono, h2p.trans h1p, h2v.trans h1v, h2i.trans h1i,
      h2o.trans h1o, h2c.trans h1c, h2a.trans h1a, ?_, ?_, ?_⟩
    · refine ⟨ext1 ++ ext2, by rw [hext2, hext1, List.append_assoc], ?_⟩
      intro q hq
      rcases List.mem_append.1 hq with h1 | h2
      · obtain ⟨hne, hk⟩ := hext1P q h1
        exact ⟨li, List.mem_cons_self li lis, hne, hk⟩
      · obtain ⟨li', hli', hne, hk⟩ := hext2P q h2
        exact ⟨li', List.mem_cons_of_mem li hli', hne, hk⟩
    · intro li' hli' hne
      rcases List.mem_cons.1 hli' with he | hm
      · subst he
        exact keys_subset_of_ext hext2 (h1cov hne)
      · exact h2cov li' hm hne
    · intro hmem
      obtain ⟨hk1, hn1⟩ := h1stab (fun hne => hmem li (List.mem_cons_self li lis) hne)
      obtain ⟨hk2, hn2⟩ := h2stab (by
        intro li' hli' hne
        rw [keys_eq_of_kil_eq hk1]
        exact hmem li' (List.mem_cons_of_mem li hli') hne)
      exact ⟨hk2.trans hk1, hn2.trans hn1⟩

theorem processLineItems_eq (e : OrderErrs) (o : SOrder) (oid : Nat) (s : DB) :
    processLineItems e o oid s = processLineItemsFrom e.li o oid 0 o.lineItems s := by
  unfold processLineItems
  by_cases hl : o.lineItems.length > 0
  · simp [hl]
  · have hnil : o.lineItems = [] := List.eq_nil_of_length_eq_zero (by omega)
    simp [hl, hnil, processLineItemsFrom]

theorem processLineItems_spec (o : SOrder) (oid : Nat) (s : DB) (h : DBOk s) :
    DBOk (processLineItems noOrderErrs o oid s) ∧
    s.nextId ≤ (processLineItems noOrderErrs o oid s).nextId ∧
    (processLineItems noOrderErrs o oid s).products = s.products ∧
    (processLineItems noOrderErrs o oid s).product_variants = s.product_variants ∧
    (processLineItems noOrderErrs o oid s).product_images = s.product_images ∧
    (processLineItems noOrderErrs o oid s).orders = s.orders ∧
    (processLineItems noOrderErrs o oid s).customers = s.customers ∧
    (processLineItems noOrderErrs o oid s).addresses = s.addresses ∧
    (∃ ext, keyIdList keyLI (processLineItems noOrderErrs o oid s).line_items =
        keyIdList keyLI s.line_items ++ ext ∧
        ∀ q ∈ ext, ∃ li ∈ o.lineItems, li.id ≠ "" ∧ q.1 = li.id) ∧
    (∀ li ∈ o.lineItems, li.id ≠ "" →
      li.id ∈ keysOf keyLI (processLineItems noOrderErrs o oid s).line_items) ∧
    ((∀ li ∈ o.lineItems, li.id ≠ "" → li.id ∈ keysOf keyLI s.line_items) →
      keyIdList keyLI (processLineItems noOrderErrs o oid s).line_items =
        keyIdList keyLI s.line_items ∧
      (processLineItems noOrderErrs o oid s).nextId = s.nextId) := by
  have heq : processLineItems noOrderErrs o oid s =
      processLineItemsFrom (fun _ => noLIErrs) o oid 0 o.lineItems s :=
    processLineItems_eq noOrderErrs o oid s
  rw [heq]
  exact processLineItemsFrom_spec o oid o.lineItems 0 s h

theorem processOrderChildren_spec (o : SOrder) (oid : Nat) (s : DB) (h : DBOk s) :
    DBOk (processOrderChildren noOrderErrs o oid s) ∧
    s.nextId ≤ (processOrderChildren noOrderErrs o oid s).nextId ∧
    (processOrderChildren noOrderErrs o oid s).products = s.products ∧
    (processOrderChildren noOrderErrs o oid s).product_variants = s.product_variants ∧
    (processOrderChildren noOrderErrs o oid s).product_images = s.product_images ∧
    (processOrderChildren noOrderErrs o oid s).orders = s.orders ∧
    (∃ ext, keyIdList keyCust (processOrderChildren noOrderErrs o oid s).customers =
        keyIdList keyCust s.customers ++ ext ∧
        ∀ q ∈ ext, custKey o = some q.1) ∧
    (∀ x, custKey o = some x →
      x ∈ keysOf keyCust (processOrderChildren noOrderErrs o oid s).customers) ∧
    (∃ ext, keyIdList keyAddr (processOrderChildren noOrderErrs o oid s).addresses =
        keyIdList keyAddr s.addresses ++ ext ∧
        ∀ q ∈ ext, (custKey o).isSome ∧
          ((o.shippingAddress.isSome ∧ q.1 = (oid, "shipping")) ∨
            (o.billingAddress.isSome ∧ q.1 = (oid, "billing")))) ∧
    ((custKey o).isSome →
      (o.shippingAddress.isSome →
        (oid, "shipping") ∈ keysOf keyAddr (processOrderChildren noOrderErrs o oid s).addresses) ∧
      (o.billingAddress.isSome →
        (oid, "billing") ∈ keysOf keyAddr (processOrderChildren noOrderErrs o oid s).addresses)) ∧
    (∃ ext, keyIdList keyLI (processOrderChildren noOrderErrs o oid s).line_items =
        keyIdList keyLI s.line_items ++ ext ∧
        ∀ q ∈ ext, ∃ li ∈ o.lineItems, li.id ≠ "" ∧ q.1 = li.id) ∧
    (∀ li ∈ o.lineItems, li.id ≠ "" →
      li.id ∈ keysOf keyLI (processOrderChildren noOrderErrs o oid s).line_items) ∧
    ((∀ x, custKey o = some x → x ∈ keysOf keyCust s.customers) →
      ((custKey o).isSome →
        (o.shippingAddress.isSome → (oid, "shipping") ∈ keysOf keyAddr s.addresses) ∧
        (o.billingAddress.isSome → (oid, "billing") ∈ keysOf keyAddr s.addresses)) →
      (∀ li ∈ o.lineItems, li.id ≠ "" → li.id ∈ keysOf keyLI s.line_items) →
      keyIdList keyCust (processOrderChildren noOrderErrs o oid s).customers =
        keyIdList keyCust s.customers ∧
      keyIdList keyAddr (processOrderChildren noOrderErrs o oid s).addresses =
        keyIdList keyAddr s.addresses ∧
      keyIdList keyLI (processOrderChildren noOrderErrs o oid s).line_items =
        keyIdList keyLI s.line_items ∧
      (processOrderChildren noOrderErrs o oid s).nextId = s.nextId) := by
  rcases ho : o.customer with _ | c
  · have hck : custKey o = none := by simp [custKey, ho]
    have hred : processOrderChildren noOrderErrs o oid s = processLineItems noOrderErrs o oid s := by
      simp [processOrderChildren, ho]
    obtain ⟨hok, hmono, hf1, hf2, hf3, hf4, hf5, hf6, hextLI, hcovLI, hstabLI⟩ :=
      processLineItems_spec o oid s h
    rw [hred]
    refine ⟨hok, hmono, hf1, hf2, hf3, hf4, ⟨[], ?_, by simp⟩, ?_, ⟨[], ?_, by simp⟩, ?_,
      hextLI, hcovLI, ?_⟩
    · rw [hf5]
      simp
    · intro x hx
      rw [hck] at hx
      simp at hx
    · rw [hf6]
      simp
    · intro hc
      rw [hck] at hc
      simp at hc
    · intro _ _ hli
      obtain ⟨hk, hn⟩ := hstabLI hli
      exact ⟨congrArg (keyIdList keyCust) hf5, congrArg (keyIdList keyAddr) hf6, hk, hn⟩
  · by_cases hcid : c.id = ""
    · have hck : custKey o = none := by simp [custKey, ho, hcid]
      have hred : processOrderChildren noOrderErrs o oid s =
          processLineItems noOrderErrs o oid s := by
        simp [processOrderChildren, ho, hcid]
      obtain ⟨hok, hmono, hf1, hf2, hf3, hf4, hf5, hf6, hextLI, hcovLI, hstabLI⟩ :=
        processLineItems_spec o oid s h
      rw [hred]
      refine ⟨hok, hmono, hf1, hf2, hf3, hf4, ⟨[], ?_, by simp⟩, ?_, ⟨[], ?_, by simp⟩, ?_,
        hextLI, hcovLI, ?_⟩
      · rw [hf5]
        simp
      · intro x hx
        rw [hck] at hx
        simp at hx
      · rw [hf6]
        simp
      · intro hc
        rw [hck] at hc
        simp at hc
      · intro _ _ hli
        obtain ⟨hk, hn⟩ := hstabLI hli
        exact ⟨congrArg (keyIdList keyCust) hf5, congrArg (keyIdList keyAddr) hf6, hk, hn⟩
    · have hck : custKey o = some c.id := by simp [custKey, ho, hcid]
      obtain ⟨h1ok, h1mono, h1p, h1v, h1i, h1o, h1a, h1l, ⟨extC, hextC, hextCP⟩, h1cov,
        ⟨cid, hcid2⟩, h1stab⟩ := processCustomer_spec c s h
      set s1 := (processCustomer noTri c s).1 with hs1
      obtain ⟨h2ok, h2mono, h2p, h2v, h2i, h2o, h2c, h2l, ⟨extS, hextS, hextSP⟩, h2cov, h2stab⟩ :=
        processAddressOpt_spec "shipping" oid cid o.shippingAddress s1 h1ok
      set s2 := processAddressOpt noTri "shipping" oid cid o.shippingAddress s1 with hs2
      obtain ⟨h3ok, h3mono, h3p, h3v, h3i, h3o, h3c, h3l, ⟨extB, hextB, hextBP⟩, h3cov, h3stab⟩ :=
        processAddressOpt_spec "billing" oid cid o.billingAddress s2 h2ok
      set s3 := processAddressOpt noTri "billing" oid cid o.billingAddress s2 with hs3
      obtain ⟨h4ok, h4mono, h4p, h4v, h4i, h4o, h4c, h4a, ⟨extL, hextL, hextLP⟩, h4cov, h4stab⟩ :=
        processLineItems_spec o oid s3 h3ok
      have hred : processOrderChildren noOrderErrs o oid s =
          processLineItems noOrderErrs o oid s3 := by
        rw [hs3, hs2, hs1]
        simp only [processOrderChildren, ho]
        rw [if_neg hcid]
        have hchk : noOrderErrs.cust.check = false := rfl
        rw [hchk]
        simp only [Bool.false_eq_true, if_false]
        have hcust : noOrderErrs.cust = noTri := rfl
        have hship : noOrderErrs.ship = noTri := rfl
        have hbill : noOrderErrs.bill = noTri := rfl
        rw [hcust, hship, hbill, hcid2]
      rw [hred]
      set s4 := processLineItems noOrderErrs o oid s3 with hs4
      refine ⟨h4ok, le_trans h1mono (le_trans h2mono (le_trans h3mono h4mono)),
        (h4p.trans (h3p.trans (h2p.trans h1p))), (h4v.trans (h3v.trans (h2v.trans h1v))),
        (h4i.trans (h3i.trans (h2i.trans h1i))), (h4o.trans (h3o.trans (h2o.trans h1o))),
        ?_, ?_, ?_, ?_, ?_, ?_, ?_⟩
      · refine ⟨extC, ?_, ?_⟩
        · rw [h4c, h3c, h2c]
          exact hextC
        · intro q hq
          rw [hck, hextCP q hq]
      · intro x hx
        rw [hck] at hx
        cases hx
        rw [h4c, h3c, h2c]
        exact h1cov
      · refine ⟨extS ++ extB, ?_, ?_⟩
        · rw [h4a, hextB, hextS, h1a, List.append_assoc]
        · intro q hq
          rcases List.mem_append.1 hq with h1 | h2
          · obtain ⟨hss, hk⟩ := hextSP q h1
            exact ⟨by rw [hck]; rfl, Or.inl ⟨hss, hk⟩⟩
          · obtain ⟨hbs, hk⟩ := hextBP q h2
            exact ⟨by rw [hck]; rfl, Or.inr ⟨hbs, hk⟩⟩
      · intro _
        constructor
        · intro hss
          rw [h4a]
          exact keys_subset_of_ext hextB (h2cov hss)
        · intro hbs
          rw [h4a]
          exact h3cov hbs
      · refine ⟨extL, ?_, hextLP⟩
        rw [hextL, h3l, h2l, h1l]
      · intro li hli hne
        exact h4cov li hli hne
      · intro hcm ham hlm
        obtain ⟨hkC, hnC⟩ := h1stab (hcm c.id hck)
        have haddr := ham (by rw [hck]; rfl)
        obtain ⟨hkS, hnS⟩ := h2stab (by
          intro hss
          have : (oid, "shipping") ∈ keysOf keyAddr s.addresses := haddr.1 hss
          rw [h1a]
          exact this)
        obtain ⟨hkB, hnB⟩ := h3stab (by
          intro hbs
          have hmem : (oid, "billing") ∈ keysOf keyAddr s.addresses := haddr.2 hbs
          rw [keys_eq_of_kil_eq hkS, h1a]
          exact hmem)
        obtain ⟨hkL, hnL⟩ := h4stab (by
          intro li hli hne
          rw [h3l, h2l, h1l]
          exact hlm li hli hne)
        refine ⟨?_, ?_, ?_, ?_⟩
        · rw [h4c, h3c, h2c]
          exact hkC
        · rw [h4a]
          rw [hkB, hkS]
          exact congrArg (keyIdList keyAddr) h1a
        · rw [hkL, h3l, h2l, h1l]
        · rw [hnL, hnB, hnS, hnC]

theorem processOrder_spec (syncedAt : String) (now : JSDate) (s : DB) (o : SOrder) (h : DBOk s) :
    DBOk (processOrder noOrderErrs syncedAt now s o) ∧
    s.nextId ≤ (processOrder noOrderErrs syncedAt now s o).nextId ∧
    (processOrder noOrderErrs syncedAt now s o).products = s.products ∧
    (processOrder noOrderErrs syncedAt now s o).product_variants = s.product_variants ∧
    (processOrder noOrderErrs syncedAt now s o).product_images = s.product_images ∧
    (∃ ext, keyIdList keyOrder (processOrder noOrderErrs syncedAt now s o).orders =
        keyIdList keyOrder s.orders ++ ext ∧
        ∀ q ∈ ext, orderValid o ∧ q.1 = o.id) ∧
    (orderValid o → o.id ∈ keysOf keyOrder (processOrder noOrderErrs syncedAt now s o).orders) ∧
    (∃ ext, keyIdList keyCust (processOrder noOrderErrs syncedAt now s o).customers =
        keyIdList keyCust s.customers ++ ext ∧
        ∀ q ∈ ext, orderValid o ∧ custKey o = some q.1) ∧
    (orderValid o → ∀ x, custKey o = some x →
      x ∈ keysOf keyCust (processOrder noOrderErrs syncedAt now s o).customers) ∧
    (∃ ext, keyIdList keyAddr (processOrder noOrderErrs syncedAt now s o).addresses =
        keyIdList keyAddr s.addresses ++ ext ∧
        ∀ q ∈ ext, orderValid o ∧ (custKey o).isSome ∧
          ∃ i, idOf keyOrder o.id (processOrder noOrderErrs syncedAt now s o).orders = some i ∧
            ((o.shippingAddress.isSome ∧ q.1 = (i, "shipping")) ∨
              (o.billingAddress.isSome ∧ q.1 = (i, "billing")))) ∧
    (orderValid o → (custKey o).isSome →
      ∀ i, idOf keyOrder o.id (processOrder noOrderErrs syncedAt now s o).orders = some i →
        (o.shippingAddress.isSome →
          (i, "shipping") ∈ keysOf keyAddr (processOrder noOrderErrs syncedAt now s o).addresses) ∧
        (o.billingAddress.isSome →
          (i, "billing") ∈ keysOf keyAddr (processOrder noOrderErrs syncedAt now s o).addresses)) ∧
    (∃ ext, keyIdList keyLI (processOrder noOrderErrs syncedAt now s o).line_items =
        keyIdList keyLI s.line_items ++ ext ∧
        ∀ q ∈ ext, orderValid o ∧ ∃ li ∈ o.lineItems, li.id ≠ "" ∧ q.1 = li.id) ∧
    (orderValid o → ∀ li ∈ o.lineItems, li.id ≠ "" →
      li.id ∈ keysOf keyLI (processOrder noOrderErrs syncedAt now s o).line_items) ∧
    ((orderValid o →
        o.id ∈ keysOf keyOrder s.orders ∧
        (∀ x, custKey o = some x → x ∈ keysOf keyCust s.customers) ∧
        (∀ li ∈ o.lineItems, li.id ≠ "" → li.id ∈ keysOf keyLI s.line_items) ∧
        (∀ i, (custKey o).isSome → idOf keyOrder o.id s.orders = some i →
          (o.shippingAddress.isSome → (i, "shipping") ∈ keysOf keyAddr s.addresses) ∧
          (o.billingAddress.isSome → (i, "billing") ∈ keysOf keyAddr s.addresses))) →
      keyIdList keyOrder (processOrder noOrderErrs syncedAt now s o).orders =
        keyIdList keyOrder s.orders ∧
      keyIdList keyCust (processOrder noOrderErrs syncedAt now s o).customers =
        keyIdList keyCust s.customers ∧
      keyIdList keyAddr (processOrder noOrderErrs syncedAt now s o).addresses =
        keyIdList keyAddr s.addresses ∧
      keyIdList keyLI (processOrder noOrderErrs syncedAt now s o).line_items =
        keyIdList keyLI s.line_items ∧
      (processOrder noOrderErrs syncedAt now s o).nextId = s.nextId) := by
  by_cases hval : o.id = "" ∨ o.name = "" ∨ o.processedAt = ""
  · have hred : processOrder noOrderErrs syncedAt now s o = s := by
      simp [processOrder, hval]
    rw [hred]
    have hnv : ¬ orderValid o := fun hc => hc hval
    exact ⟨h, le_refl _, rfl, rfl, rfl, ⟨[], by simp, by simp⟩, fun hc => absurd hc hnv,
      ⟨[], by simp, by simp⟩, fun hc => absurd hc hnv,
      ⟨[], by simp, by simp⟩, fun hc => absurd hc hnv,
      ⟨[], by simp, by simp⟩, fun hc => absurd hc hnv,
      fun _ => ⟨rfl, rfl, rfl, rfl, rfl⟩⟩
  · have hvalP : orderValid o := hval
    have hred : processOrder noOrderErrs syncedAt now s o =
        processOrderChildren noOrderErrs o
          (upsertRow mergeOrder keyOrder (formatOrder syncedAt now o) s.orders s.nextId).2.1
          { s with
            orders :=
              (upsertRow mergeOrder keyOrder (formatOrder syncedAt now o) s.orders s.nextId).1,
            nextId :=
              (upsertRow mergeOrder keyOrder (formatOrder syncedAt now o) s.orders
                s.nextId).2.2 } := by
      simp only [processOrder, if_neg hval]
      have hchk : noOrderErrs.ord.check = false := rfl
      rw [hchk]
      simp only [Bool.false_eq_true, if_false]
      have hord : noOrderErrs.ord = noTri := rfl
      rw [hord]
      rw [show noTri.update = false from rfl, show noTri.insert = false from rfl,
        strictUpsert_noErr]
    obtain ⟨⟨ext0, hext0, hext0P⟩, hcov0, hstab0, hmono0, hid0, _, _⟩ :=
      upsertRow_spec mergeOrder keyOrder (formatOrder syncedAt now o) s.orders s.nextId
        h.2.2.2.1.2.1 (fun _ => rfl)
    have hto0 := @upsertRow_tableOk _ _ _ mergeOrder keyOrder (formatOrder syncedAt now o) _ _
      h.2.2.2.1 (fun _ => rfl)
    set u := upsertRow mergeOrder keyOrder (formatOrder syncedAt now o) s.orders s.nextId
      with hu
    set s1 : DB := { s with orders := u.1, nextId := u.2.2 } with hs1
    have h1ok : DBOk s1 := ⟨h.1.mono hmono0, h.2.1.mono hmono0, h.2.2.1.mono hmono0, hto0,
      h.2.2.2.2.1.mono hmono0, h.2.2.2.2.2.1.mono hmono0, h.2.2.2.2.2.2.mono hmono0⟩
    have hself : idOf keyOrder o.id s1.orders = some u.2.1 := hid0
    obtain ⟨h2ok, h2mono, h2p, h2v, h2i, h2o, ⟨extC, hextC, hextCP⟩, h2covC,
      ⟨extA, hextA, hextAP⟩, h2covA, ⟨extL, hextL, hextLP⟩, h2covL, h2stab⟩ :=
      processOrderChildren_spec o u.2.1 s1 h1ok
    rw [hred]
    set s2 := processOrderChildren noOrderErrs o u.2.1 s1 with hs2
    have horders2 : s2.orders = u.1 := h2o
    have hidfinal : idOf keyOrder o.id s2.orders = some u.2.1 := by
      rw [horders2]
      exact hself
    refine ⟨h2ok, le_trans hmono0 h2mono, h2p, h2v, h2i, ?_, ?_, ?_, ?_, ?_, ?_, ?_, ?_, ?_⟩
    · refine ⟨ext0, ?_, fun q hq => ⟨hvalP, (hext0P q hq).1⟩⟩
      rw [horders2]
      exact hext0
    · intro _
      have hksame : keysOf keyOrder s2.orders = keysOf keyOrder u.1 :=
        congrArg (keysOf keyOrder) horders2
      rw [hksame]
      exact hcov0
    · exact ⟨extC, hextC, fun q hq => ⟨hvalP, hextCP q hq⟩⟩
    · intro _ x hx
      exact h2covC x hx
    · refine ⟨extA, hextA, ?_⟩
      intro q hq
      obtain ⟨hsome, hor⟩ := hextAP q hq
      exact ⟨hvalP, hsome, u.2.1, hidfinal, hor⟩
    · intro _ hsome i hi
      rw [hidfinal] at hi
      cases hi
      exact h2covA hsome
    · exact ⟨extL, hextL, fun q hq => ⟨hvalP, hextLP q hq⟩⟩
    · intro _ li hli hne
      exact h2covL li hli hne
    · intro hst
      obtain ⟨hom, hcm, hlm, ham⟩ := hst hvalP
      obtain ⟨hk0, hn0⟩ := hstab0 hom
      have hids : idOf keyOrder o.id s.orders = some u.2.1 := by
        have h1 : idOf keyOrder o.id u.1 = idOf keyOrder o.id s.orders := by
          rw [idOf_eq_lookupKI, idOf_eq_lookupKI, hk0]
        rw [← h1]
        exact hself
      obtain ⟨hkC, hkA, hkL, hnn⟩ := h2stab
        (by
          intro x hx
          exact hcm x hx)
        (by
          intro hsome
          exact ham u.2.1 hsome hids)
        (by
          intro li hli hne
          exact hlm li hli hne)
      refine ⟨?_, hkC, hkA, hkL, ?_⟩
      · rw [horders2]
        exact hk0
      · rw [hnn]
        exact hn0

theorem processOrdersFrom_spec (syncedAt : String) (now : JSDate) (os : List SOrder) :
    ∀ (i : Nat) (s : DB), DBOk s →
    DBOk (processOrdersFrom (fun _ => noOrderErrs) syncedAt now i os s) ∧
    s.nextId ≤ (processOrdersFrom (fun _ => noOrderErrs) syncedAt now i os s).nextId ∧
    (processOrdersFrom (fun _ => noOrderErrs) syncedAt now i os s).products = s.products ∧
    (processOrdersFrom (fun _ => noOrderErrs) syncedAt now i os s).product_variants =
      s.product_variants ∧
    (processOrdersFrom (fun _ => noOrderErrs) syncedAt now i os s).product_images =
      s.product_images ∧
    (∃ ext, keyIdList keyOrder
        (processOrdersFrom (fun _ => noOrderErrs) syncedAt now i os s).orders =
        keyIdList keyOrder s.orders ++ ext ∧
        ∀ q ∈ ext, ∃ o ∈ os, orderValid o ∧ q.1 = o.id) ∧
    (∀ o ∈ os, orderValid o →
      o.id ∈ keysOf keyOrder
        (processOrdersFrom (fun _ => noOrderErrs) syncedAt now i os s).orders) ∧
    (∃ ext, keyIdList keyCust
        (processOrdersFrom (fun _ => noOrderErrs) syncedAt now i os s).customers =
        keyIdList keyCust s.customers ++ ext ∧
        ∀ q ∈ ext, ∃ o ∈ os, orderValid o ∧ custKey o = some q.1) ∧
    (∀ o ∈ os, orderValid o → ∀ x, custKey o = some x →
      x ∈ keysOf keyCust
        (processOrdersFrom (fun _ => noOrderErrs) syncedAt now i os s).customers) ∧
    (∃ ext, keyIdList keyAddr
        (processOrdersFrom (fun _ => noOrderErrs) syncedAt now i os s).addresses =
        keyIdList keyAddr s.addresses ++ ext ∧
        ∀ q ∈ ext, ∃ o ∈ os, orderValid o ∧ (custKey o).isSome ∧
          ∃ j, idOf keyOrder o.id
              (processOrdersFrom (fun _ => noOrderErrs) syncedAt now i os s).orders = some j ∧
            ((o.shippingAddress.isSome ∧ q.1 = (j, "shipping")) ∨
              (o.billingAddress.isSome ∧ q.1 = (j, "billing")))) ∧
    (∀ o ∈ os, orderValid o → (custKey o).isSome →
      ∀ j, idOf keyOrder o.id
          (processOrdersFrom (fun _ => noOrderErrs) syncedAt now i os s).orders = some j →
        (o.shippingAddress.isSome →
          (j, "shipping") ∈ keysOf keyAddr
            (processOrdersFrom (fun _ => noOrderErrs) syncedAt now i os s).addresses) ∧
        (o.billingAddress.isSome →
          (j, "billing") ∈ keysOf keyAddr
            (processOrdersFrom (fun _ => noOrderErrs) syncedAt now i os s).addresses)) ∧
    (∃ ext, keyIdList keyLI
        (processOrdersFrom (fun _ => noOrderErrs) syncedAt now i os s).line_items =
        keyIdList keyLI s.line_items ++ ext ∧
        ∀ q ∈ ext, ∃ o ∈ os, orderValid o ∧ ∃ li ∈ o.lineItems, li.id ≠ "" ∧ q.1 = li.id) ∧
    (∀ o ∈ os, orderValid o → ∀ li ∈ o.lineItems, li.id ≠ "" →
      li.id ∈ keysOf keyLI
        (processOrdersFrom (fun _ => noOrderErrs) syncedAt now i os s).line_items) ∧
    ((∀ o ∈ os, orderValid o →
        o.id ∈ keysOf keyOrder s.orders ∧
        (∀ x, custKey o = some x → x ∈ keysOf keyCust s.customers) ∧
        (∀ li ∈ o.lineItems, li.id ≠ "" → li.id ∈ keysOf keyLI s.line_items) ∧
        (∀ j, (custKey o).isSome → idOf keyOrder o.id s.orders = some j →
          (o.shippingAddress.isSome → (j, "shipping") ∈ keysOf keyAddr s.addresses) ∧
          (o.billingAddress.isSome → (j, "billing") ∈ keysOf keyAddr s.addresses))) →
      keyIdList keyOrder (processOrdersFrom (fun _ => noOrderErrs) syncedAt now i os s).orders =
        keyIdList keyOrder s.orders ∧
      keyIdList keyCust
        (processOrdersFrom (fun _ => noOrderErrs) syncedAt now i os s).customers =
        keyIdList keyCust s.customers ∧
      keyIdList keyAddr
        (processOrdersFrom (fun _ => noOrderErrs) syncedAt now i os s).addresses =
        keyIdList keyAddr s.addresses ∧
      keyIdList keyLI
        (processOrdersFrom (fun _ => noOrderErrs) syncedAt now i os s).line_items =
        keyIdList keyLI s.line_items ∧
      (processOrdersFrom (fun _ => noOrderErrs) syncedAt now i os s).nextId = s.nextId) := by
  induction os with
  | nil =>
    intro i s h
    exact ⟨h, le_refl _, rfl, rfl, rfl,
      ⟨[], by simp [processOrdersFrom], by simp⟩, fun o ho => absurd ho (List.not_mem_nil o),
      ⟨[], by simp [processOrdersFrom], by simp⟩, fun o ho => absurd ho (List.not_mem_nil o),
      ⟨[], by simp [processOrdersFrom], by simp⟩, fun o ho => absurd ho (List.not_mem_nil o),
      ⟨[], by simp [processOrdersFrom], by simp⟩, fun o ho => absurd ho (List.not_mem_nil o),
      fun _ => ⟨rfl, rfl, rfl, rfl, rfl⟩⟩
  | cons o os ih =>
    intro i s h
    obtain ⟨h1ok, h1mono, h1p, h1v, h1i, ⟨extO1, hextO1, hextO1P⟩, h1covO,
      ⟨extC1, hextC1, hextC1P⟩, h1covC, ⟨extA1, hextA1, hextA1P⟩, h1covA,
      ⟨extL1, hextL1, hextL1P⟩, h1covL, h1stab⟩ := processOrder_spec syncedAt now s o h
    set s1 := processOrder noOrderErrs syncedAt now s o with hs1
    obtain ⟨h2ok, h2mono, h2p, h2v, h2i, ⟨extO2, hextO2, hextO2P⟩, h2covO,
      ⟨extC2, hextC2, hextC2P⟩, h2covC, ⟨extA2, hextA2, hextA2P⟩, h2covA,
      ⟨extL2, hextL2, hextL2P⟩, h2covL, h2stab⟩ := ih (i + 1) s1 h1ok
    have hstep : processOrdersFrom (fun _ => noOrderErrs) syncedAt now i (o :: os) s =
        processOrdersFrom (fun _ => noOrderErrs) syncedAt now (i + 1) os s1 := rfl
    rw [hstep]
    set S := processOrdersFrom (fun _ => noOrderErrs) syncedAt now (i + 1) os s1 with hS
    have hidstable : ∀ k, k ∈ keysOf keyOrder s1.orders →
        idOf keyOrder k S.orders = idOf keyOrder k s1.orders :=
      fun k hk => idOf_stable_of_ext hextO2 hk
    refine ⟨h2ok, le_trans h1mono h2mono, h2p.trans h1p, h2v.trans h1v, h2i.trans h1i,
      ?_, ?_, ?_, ?_, ?_, ?_, ?_, ?_, ?_⟩
    · refine ⟨extO1 ++ extO2, by rw [hextO2, hextO1, List.append_assoc], ?_⟩
      intro q hq
      rcases List.mem_append.1 hq with h1 | h2
      · obtain ⟨hv, hk⟩ := hextO1P q h1
        exact ⟨o, List.mem_cons_self o os, hv, hk⟩
      · obtain ⟨o', ho', hv, hk⟩ := hextO2P q h2
        exact ⟨o', List.mem_cons_of_mem o ho', hv, hk⟩
    · intro o' ho' hv
      rcases List.mem_cons.1 ho' with he | hm
      · subst he
        exact keys_subset_of_ext hextO2 (h1covO hv)
      · exact h2covO o' hm hv
    · refine ⟨extC1 ++ extC2, by rw [hextC2, hextC1, List.append_assoc], ?_⟩
      intro q hq
      rcases List.mem_append.1 hq with h1 | h2
      · obtain ⟨hv, hk⟩ := hextC1P q h1
        exact ⟨o, List.mem_cons_self o os, hv, hk⟩
      · obtain ⟨o', ho', hv, hk⟩ := hextC2P q h2
        exact ⟨o', List.mem_cons_of_mem o ho', hv, hk⟩
    · intro o' ho' hv x hx
      rcases List.mem_cons.1 ho' with he | hm
      · subst he
        exact keys_subset_of_ext hextC2 (h1covC hv x hx)
      · exact h2covC o' hm hv x hx
    · refine ⟨extA1 ++ extA2, by rw [hextA2, hextA1, List.append_assoc], ?_⟩
      intro q hq
      rcases List.mem_append.1 hq with h1 | h2
      · obtain ⟨hv, hsome, j, hj, hor⟩ := hextA1P q h1
        refine ⟨o, List.mem_cons_self o os, hv, hsome, j, ?_, hor⟩
        rw [hidstable o.id (h1covO hv)]
        exact hj
      · obtain ⟨o', ho', hv, hsome, j, hj, hor⟩ := hextA2P q h2
        exact ⟨o', List.mem_cons_of_mem o ho', hv, hsome, j, hj, hor⟩
    · intro o' ho' hv hsome j hj
      rcases List.mem_cons.1 ho' with he | hm
      · subst he
        rw [hidstable o'.id (h1covO hv)] at hj
        obtain ⟨hships, hbills⟩ := h1covA hv hsome j hj
        exact ⟨fun hss => keys_subset_of_ext hextA2 (hships hss),
          fun hbs => keys_subset_of_ext hextA2 (hbills hbs)⟩
      · exact h2covA o' hm hv hsome j hj
    · refine ⟨extL1 ++ extL2, by rw [hextL2, hextL1, List.append_assoc], ?_⟩
      intro q hq
      rcases List.mem_append.1 hq with h1 | h2
      · obtain ⟨hv, hk⟩ := hextL1P q h1
        exact ⟨o, List.mem_cons_self o os, hv, hk⟩
      · obtain ⟨o', ho', hv, hk⟩ := hextL2P q h2
        exact ⟨o', List.mem_cons_of_mem o ho', hv, hk⟩
    · intro o' ho' hv li hli hne
      rcases List.mem_cons.1 ho' with he | hm
      · subst he
        exact keys_subset_of_ext hextL2 (h1covL hv li hli hne)
      · exact h2covL o' hm hv li hli hne
    · intro hmem
      obtain ⟨hkO1, hkC1, hkA1, hkL1, hn1⟩ :=
        h1stab (fun hv => hmem o (List.mem_cons_self o os) hv)
      have hkeysO1 := keys_eq_of_kil_eq hkO1
      have hkeysC1 := keys_eq_of_kil_eq hkC1
      have hkeysA1 := keys_eq_of_kil_eq hkA1
      have hkeysL1 := keys_eq_of_kil_eq hkL1
      have hidO1 : ∀ k, idOf keyOrder k s1.orders = idOf keyOrder k s.orders := by
        intro k
        rw [idOf_eq_lookupKI, idOf_eq_lookupKI, hkO1]
      obtain ⟨hkO2, hkC2, hkA2, hkL2, hn2⟩ := h2stab (by
        intro o' ho' hv
        obtain ⟨hm1, hm2, hm3, hm4⟩ := hmem o' (List.mem_cons_of_mem o ho') hv
        refine ⟨?_, ?_, ?_, ?_⟩
        · rw [hkeysO1]
          exact hm1
        · intro x hx
          rw [hkeysC1]
          exact hm2 x hx
        · intro li hli hne
          rw [hkeysL1]
          exact hm3 li hli hne
        · intro j hsome hj
          rw [hidO1] at hj
          obtain ⟨hships, hbills⟩ := hm4 j hsome hj
          exact ⟨fun hss => by rw [hkeysA1]; exact hships hss,
            fun hbs => by rw [hkeysA1]; exact hbills hbs⟩)
      exact ⟨hkO2.trans hkO1, hkC2.trans hkC1, hkA2.trans hkA1, hkL2.trans hkL1,
        hn2.trans hn1⟩

/-- C1: the sync is idempotent with respect to row counts. Starting
from the empty store, one error-free pass of the products job followed
by the orders job, and then a second such pass over the same remote
records (with fresh timestamps), leaves every table's natural-key list
unchanged (so the second pass inserted no row in any parent or child
table), every table holds pairwise distinct natural keys (exactly one
row per distinct external id; for addresses the natural key the code
reconciles by is `(order_id, address_type)`), and the six
external-id-keyed tables hold exactly the external ids of the valid
remote records. -/
theorem sync_twice_one_row_per_external_id
    (ps : List SProduct) (os : List SOrder) (sy1 sy2 : String) (now1 now2 : JSDate) :
    (keysOf keyProd (syncPass sy2 now2 ps os (syncPass sy1 now1 ps os emptyDB)).products =
      keysOf keyProd (syncPass sy1 now1 ps os emptyDB).products) ∧
    (keysOf keyVar (syncPass sy2 now2 ps os (syncPass sy1 now1 ps os emptyDB)).product_variants =
      keysOf keyVar (syncPass sy1 now1 ps os emptyDB).product_variants) ∧
    (keysOf keyImg (syncPass sy2 now2 ps os (syncPass sy1 now1 ps os emptyDB)).product_images =
      keysOf keyImg (syncPass sy1 now1 ps os emptyDB).product_images) ∧
    (keysOf keyOrder (syncPass sy2 now2 ps os (syncPass sy1 now1 ps os emptyDB)).orders =
      keysOf keyOrder (syncPass sy1 now1 ps os emptyDB).orders) ∧
    (keysOf keyCust (syncPass sy2 now2 ps os (syncPass sy1 now1 ps os emptyDB)).customers =
      keysOf keyCust (syncPass sy1 now1 ps os emptyDB).customers) ∧
    (keysOf keyAddr (syncPass sy2 now2 ps os (syncPass sy1 now1 ps os emptyDB)).addresses =
      keysOf keyAddr (syncPass sy1 now1 ps os emptyDB).addresses) ∧
    (keysOf keyLI (syncPass sy2 now2 ps os (syncPass sy1 now1 ps os emptyDB)).line_items =
      keysOf keyLI (syncPass sy1 now1 ps os emptyDB).line_items) ∧
    ((syncPass sy2 now2 ps os (syncPass sy1 now1 ps os emptyDB)).products.length =
      (syncPass sy1 now1 ps os emptyDB).products.length) ∧
    ((syncPass sy2 now2 ps os (syncPass sy1 now1 ps os emptyDB)).product_variants.length =
      (syncPass sy1 now1 ps os emptyDB).product_variants.length) ∧
    ((syncPass sy2 now2 ps os (syncPass sy1 now1 ps os emptyDB)).product_images.length =
      (syncPass sy1 now1 ps os emptyDB).product_images.length) ∧
    ((syncPass sy2 now2 ps os (syncPass sy1 now1 ps os emptyDB)).orders.length =
      (syncPass sy1 now1 ps os emptyDB).orders.length) ∧
    ((syncPass sy2 now2 ps os (syncPass sy1 now1 ps os emptyDB)).customers.length =
      (syncPass sy1 now1 ps os emptyDB).customers.length) ∧
    ((syncPass sy2 now2 ps os (syncPass sy1 now1 ps os emptyDB)).addresses.length =
      (syncPass sy1 now1 ps os emptyDB).addresses.length) ∧
    ((syncPass sy2 now2 ps os (syncPass sy1 now1 ps os emptyDB)).line_items.length =
      (syncPass sy1 now1 ps os emptyDB).line_items.length) ∧
    (keysOf keyProd (syncPass sy2 now2 ps os (syncPass sy1 now1 ps os emptyDB)).products).Nodup ∧
    (keysOf keyVar
      (syncPass sy2 now2 ps os (syncPass sy1 now1 ps os emptyDB)).product_variants).Nodup ∧
    (keysOf keyImg
      (syncPass sy2 now2 ps os (syncPass sy1 now1 ps os emptyDB)).product_images).Nodup ∧
    (keysOf keyOrder (syncPass sy2 now2 ps os (syncPass sy1 now1 ps os emptyDB)).orders).Nodup ∧
    (keysOf keyCust
      (syncPass sy2 now2 ps os (syncPass sy1 now1 ps os emptyDB)).customers).Nodup ∧
    (keysOf keyAddr
      (syncPass sy2 now2 ps os (syncPass sy1 now1 ps os emptyDB)).addresses).Nodup ∧
    (keysOf keyLI
      (syncPass sy2 now2 ps os (syncPass sy1 now1 ps os emptyDB)).line_items).Nodup ∧
    (∀ x, x ∈ keysOf keyProd
        (syncPass sy2 now2 ps os (syncPass sy1 now1 ps os emptyDB)).products ↔
      ∃ p ∈ ps, productValid p ∧ x = p.id) ∧
    (∀ x, x ∈ keysOf keyVar
        (syncPass sy2 now2 ps os (syncPass sy1 now1 ps os emptyDB)).product_variants ↔
      ∃ p ∈ ps, productValid p ∧ ∃ v ∈ p.variants, v.id ≠ "" ∧ x = v.id) ∧
    (∀ x, x ∈ keysOf keyImg
        (syncPass sy2 now2 ps os (syncPass sy1 now1 ps os emptyDB)).product_images ↔
      ∃ p ∈ ps, productValid p ∧ ∃ im ∈ p.images, im.id ≠ "" ∧ x = im.id) ∧
    (∀ x, x ∈ keysOf keyOrder
        (syncPass sy2 now2 ps os (syncPass sy1 now1 ps os emptyDB)).orders ↔
      ∃ o ∈ os, orderValid o ∧ x = o.id) ∧
    (∀ x, x ∈ keysOf keyCust
        (syncPass sy2 now2 ps os (syncPass sy1 now1 ps os emptyDB)).customers ↔
      ∃ o ∈ os, orderValid o ∧ custKey o = some x) ∧
    (∀ x, x ∈ keysOf keyLI
        (syncPass sy2 now2 ps os (syncPass sy1 now1 ps os emptyDB)).line_items ↔
      ∃ o ∈ os, orderValid o ∧ ∃ li ∈ o.lineItems, li.id ≠ "" ∧ x = li.id) := by
  have h0 : DBOk emptyDB := emptyDB_ok
  have hunfold : ∀ (sy : String) (now : JSDate) (s : DB), syncPass sy now ps os s =
      processOrdersFrom (fun _ => noOrderErrs) sy now 0 os
        (processProductsFrom (fun _ => noProductErrs) sy 0 ps s) := fun _ _ _ => rfl
  rw [hunfold, hunfold]
  set sA := processProductsFrom (fun _ => noProductErrs) sy1 0 ps emptyDB with hsA
  obtain ⟨hAok, hAmono, hAo, hAc, hAa, hAl, ⟨extAp, hAextp, hAextpP⟩, hAcovp,
    ⟨extAv, hAextv, hAextvP⟩, hAcovv, ⟨extAi, hAexti, hAextiP⟩, hAcovi, hAstab⟩ :=
    processProductsFrom_spec sy1 ps 0 emptyDB h0
  set s1 := processOrdersFrom (fun _ => noOrderErrs) sy1 now1 0 os sA with hs1
  obtain ⟨hBok, hBmono, hBp, hBv, hBi, ⟨extBo, hBexto, hBextoP⟩, hBcovo,
    ⟨extBc, hBextc, hBextcP⟩, hBcovc, ⟨extBa, hBexta, hBextaP⟩, hBcova,
    ⟨extBl, hBextl, hBextlP⟩, hBcovl, hBstab⟩ :=
    processOrdersFrom_spec sy1 now1 os 0 sA hAok
  set sB := processProductsFrom (fun _ => noProductErrs) sy2 0 ps s1 with hsB
  obtain ⟨hCok, hCmono, hCo, hCc, hCa, hCl, ⟨extCp, hCextp, hCextpP⟩, hCcovp,
    ⟨extCv, hCextv, hCextvP⟩, hCcovv, ⟨extCi, hCexti, hCextiP⟩, hCcovi, hCstab⟩ :=
    processProductsFrom_spec sy2 ps 0 s1 hBok
  set s2 := processOrdersFrom (fun _ => noOrderErrs) sy2 now2 0 os sB with hs2
  obtain ⟨hDok, hDmono, hDp, hDv, hDi, ⟨extDo, hDexto, hDextoP⟩, hDcovo,
    ⟨extDc, hDextc, hDextcP⟩, hDcovc, ⟨extDa, hDexta, hDextaP⟩, hDcova,
    ⟨extDl, hDextl, hDextlP⟩, hDcovl, hDstab⟩ :=
    processOrdersFrom_spec sy2 now2 os 0 sB hCok
  -- the second products pass only updates
  obtain ⟨hCkp, hCkv, hCki, hCn⟩ := hCstab (by
    intro p hp hv
    refine ⟨?_, ?_, ?_⟩
    · rw [show keysOf keyProd s1.products = keysOf keyProd sA.products from
        congrArg (keysOf keyProd) hBp]
      exact hAcovp p hp hv
    · intro v hvm hne
      rw [show keysOf keyVar s1.product_variants = keysOf keyVar sA.product_variants from
        congrArg (keysOf keyVar) hBv]
      exact hAcovv p hp hv v hvm hne
    · intro im him hne
      rw [show keysOf keyImg s1.product_images = keysOf keyImg sA.product_images from
        congrArg (keysOf keyImg) hBi]
      exact hAcovi p hp hv im him hne)
  -- the second orders pass only updates
  obtain ⟨hDko, hDkc, hDka, hDkl, hDn⟩ := hDstab (by
    intro o ho hv
    refine ⟨?_, ?_, ?_, ?_⟩
    · rw [show keysOf keyOrder sB.orders = keysOf keyOrder s1.orders from
        congrArg (keysOf keyOrder) hCo]
      exact hBcovo o ho hv
    · intro x hx
      rw [show keysOf keyCust sB.customers = keysOf keyCust s1.customers from
        congrArg (keysOf keyCust) hCc]
      exact hBcovc o ho hv x hx
    · intro li hli hne
      rw [show keysOf keyLI sB.line_items = keysOf keyLI s1.line_items from
        congrArg (keysOf keyLI) hCl]
      exact hBcovl o ho hv li hli hne
    · intro j hsome hj
      rw [show idOf keyOrder o.id sB.orders = idOf keyOrder o.id s1.orders from
        congrArg (idOf keyOrder o.id) hCo] at hj
      obtain ⟨hships, hbills⟩ := hBcova o ho hv hsome j hj
      rw [show keysOf keyAddr sB.addresses = keysOf keyAddr s1.addresses from
        congrArg (keysOf keyAddr) hCa]
      exact ⟨hships, hbills⟩)
  -- key lists of the second-pass state coincide with the first-pass state
  have hKp : keysOf keyProd s2.products = keysOf keyProd s1.products :=
    (congrArg (keysOf keyProd) hDp).trans (keys_eq_of_kil_eq hCkp)
  have hKv : keysOf keyVar s2.product_variants = keysOf keyVar s1.product_variants :=
    (congrArg (keysOf keyVar) hDv).trans (keys_eq_of_kil_eq hCkv)
  have hKi : keysOf keyImg s2.product_images = keysOf keyImg s1.product_images :=
    (congrArg (keysOf keyImg) hDi).trans (keys_eq_of_kil_eq hCki)
  have hKo : keysOf keyOrder s2.orders = keysOf keyOrder s1.orders :=
    (keys_eq_of_kil_eq hDko).trans (congrArg (keysOf keyOrder) hCo)
  have hKc : keysOf keyCust s2.customers = keysOf keyCust s1.customers :=
    (keys_eq_of_kil_eq hDkc).trans (congrArg (keysOf keyCust) hCc)
  have hKa : keysOf keyAddr s2.addresses = keysOf keyAddr s1.addresses :=
    (keys_eq_of_kil_eq hDka).trans (congrArg (keysOf keyAddr) hCa)
  have hKl : keysOf keyLI s2.line_items = keysOf keyLI s1.line_items :=
    (keys_eq_of_kil_eq hDkl).trans (congrArg (keysOf keyLI) hCl)
  -- first-pass key-level views, from the empty store
  have hkilAp : keyIdList keyProd sA.products = extAp := by
    rw [hAextp]
    rfl
  have hkilAv : keyIdList keyVar sA.product_variants = extAv := by
    rw [hAextv]
    rfl
  have hkilAi : keyIdList keyImg sA.product_images = extAi := by
    rw [hAexti]
    rfl
  have hkilBo : keyIdList keyOrder s1.orders = extBo := by
    rw [hBexto, show keyIdList keyOrder sA.orders = [] from by rw [hAo]; rfl]
    rfl
  have hkilBc : keyIdList keyCust s1.customers = extBc := by
    rw [hBextc, show keyIdList keyCust sA.customers = [] from by rw [hAc]; rfl]
    rfl
  have hkilBl : keyIdList keyLI s1.line_items = extBl := by
    rw [hBextl, show keyIdList keyLI sA.line_items = [] from by rw [hAl]; rfl]
    rfl
  refine ⟨hKp, hKv, hKi, hKo, hKc, hKa, hKl,
    length_eq_of_keys_eq hKp, length_eq_of_keys_eq hKv, length_eq_of_keys_eq hKi,
    length_eq_of_keys_eq hKo, length_eq_of_keys_eq hKc, length_eq_of_keys_eq hKa,
    length_eq_of_keys_eq hKl,
    hDok.1.1, hDok.2.1.1, hDok.2.2.1.1, hDok.2.2.2.1.1, hDok.2.2.2.2.1.1,
    hDok.2.2.2.2.2.1.1, hDok.2.2.2.2.2.2.1, ?_, ?_, ?_, ?_, ?_, ?_⟩
  · intro x
    rw [hKp, show keysOf keyProd s1.products = keysOf keyProd sA.products from
      congrArg (keysOf keyProd) hBp, keysOf_eq_keyIdList, hkilAp]
    constructor
    · intro hx
      obtain ⟨q, hq, rfl⟩ := List.mem_map.1 hx
      obtain ⟨p, hp, hv, hk⟩ := hAextpP q hq
      exact ⟨p, hp, hv, hk⟩
    · rintro ⟨p, hp, hv, rfl⟩
      have := hAcovp p hp hv
      rwa [keysOf_eq_keyIdList, hkilAp] at this
  · intro x
    rw [hKv, show keysOf keyVar s1.product_variants = keysOf keyVar sA.product_variants from
      congrArg (keysOf keyVar) hBv, keysOf_eq_keyIdList, hkilAv]
    constructor
    · intro hx
      obtain ⟨q, hq, rfl⟩ := List.mem_map.1 hx
      obtain ⟨p, hp, hv, v, hvm, hne, hk⟩ := hAextvP q hq
      exact ⟨p, hp, hv, v, hvm, hne, hk⟩
    · rintro ⟨p, hp, hv, v, hvm, hne, rfl⟩
      have := hAcovv p hp hv v hvm hne
      rwa [keysOf_eq_keyIdList, hkilAv] at this
  · intro x
    rw [hKi, show keysOf keyImg s1.product_images = keysOf keyImg sA.product_images from
      congrArg (keysOf keyImg) hBi, keysOf_eq_keyIdList, hkilAi]
    constructor
    · intro hx
      obtain ⟨q, hq, rfl⟩ := List.mem_map.1 hx
      obtain ⟨p, hp, hv, im, him, hne, hk⟩ := hAextiP q hq
      exact ⟨p, hp, hv, im, him, hne, hk⟩
    · rintro ⟨p, hp, hv, im, him, hne, rfl⟩
      have := hAcovi p hp hv im him hne
      rwa [keysOf_eq_keyIdList, hkilAi] at this
  · intro x
    rw [hKo, keysOf_eq_keyIdList, hkilBo]
    constructor
    · intro hx
      obtain ⟨q, hq, rfl⟩ := List.mem_map.1 hx
      obtain ⟨o, ho, hv, hk⟩ := hBextoP q hq
      exact ⟨o, ho, hv, hk⟩
    · rintro ⟨o, ho, hv, rfl⟩
      have := hBcovo o ho hv
      rwa [keysOf_eq_keyIdList, hkilBo] at this
  · intro x
    rw [hKc, keysOf_eq_keyIdList, hkilBc]
    constructor
    · intro hx
      obtain ⟨q, hq, rfl⟩ := List.mem_map.1 hx
      obtain ⟨o, ho, hv, hk⟩ := hBextcP q hq
      exact ⟨o, ho, hv, hk⟩
    · rintro ⟨o, ho, hv, hx⟩
      have := hBcovc o ho hv x hx
      rwa [keysOf_eq_keyIdList, hkilBc] at this
  · intro x
    rw [hKl, keysOf_eq_keyIdList, hkilBl]
    constructor
    · intro hx
      obtain ⟨q, hq, rfl⟩ := List.mem_map.1 hx
      obtain ⟨o, ho, hv, li, hli, hne, hk⟩ := hBextlP q hq
      exact ⟨o, ho, hv, li, hli, hne, hk⟩
    · rintro ⟨o, ho, hv, li, hli, hne, rfl⟩
      have := hBcovl o ho hv li hli hne
      rwa [keysOf_eq_keyIdList, hkilBl] at this

/-- C5: when the first page response reports `hasNextPage = false`,
the pagination loop issues exactly one page request, takes no
inter-page delay, and returns that page's records. -/
theorem pagination_stops_after_single_page {R : Type}
    (respond : Option String → Except String (Page R)) (fuel : Nat) (pg : Page R)
    (h1 : respond none = Except.ok pg) (h2 : pg.hasNextPage = false) :
    fetchLoop respond (fuel + 1) none [] = some (Except.ok pg.records, 1, 0) := by
  unfold fetchLoop
  rw [h1]
  simp [h2]

theorem pagination_stops_after_single_page_witness :
    fetchLoop (fun _ => Except.ok (⟨[], false, none⟩ : Page Nat)) 1 none [] =
      some (Except.ok ([] : List Nat), 1, 0) :=
  pagination_stops_after_single_page (fun _ => Except.ok ⟨[], false, none⟩) 0
    ⟨[], false, none⟩ rfl rfl

/-- C6: every fetch failure mode of `shopifyGraphqlRequest` (network
error, non-OK HTTP response, GraphQL `errors` member) throws; at the
failing request the pagination loop issues exactly that one request
(no retry, no delay, no further pages); and a failed fetch makes
either sync route return its 500 failure response with the store
untouched, so nothing is upserted in that run. -/
theorem fetch_failure_aborts_sync :
    (∀ (T : Type) (m : String),
      shopifyGraphqlRequest (HttpOutcome.netError m : HttpOutcome T) = Except.error m) ∧
    (∀ (T : Type) (status : Nat) (body : String) (g : Option String) (d : T),
      shopifyGraphqlRequest (HttpOutcome.response false status body g d) =
        Except.error ("Shopify API error: " ++ toString status ++ " " ++ body)) ∧
    (∀ (T : Type) (status : Nat) (body g : String) (d : T),
      shopifyGraphqlRequest (HttpOutcome.response true status body (some g) d) =
        Except.error ("Shopify GraphQL error: " ++ g)) ∧
    (∀ (R : Type) (respond : Option String → Except String (Page R)) (fuel : Nat)
        (c : Option String) (acc : List R) (msg : String),
      respond c = Except.error msg →
      fetchLoop respond (fuel + 1) c acc = some (Except.error msg, 1, 0)) ∧
    (∀ (respond : Option String → Except String (Page SOrder)) (fuel : Nat)
        (e : Nat → OrderErrs) (sy : String) (now : JSDate) (sd ed : String) (s : DB)
        (msg : String) (r dl : Nat),
      sd ≠ "" → ed ≠ "" →
      fetchLoop respond fuel none [] = some (Except.error msg, r, dl) →
      ordersSyncJob respond fuel e sy now (some sd) (some ed) s =
        some (⟨false, 500, 0, some msg⟩, s)) ∧
    (∀ (respond : Option String → Except String (Page SProduct)) (fuel : Nat)
        (e : Nat → ProductErrs) (sy : String) (s : DB) (msg : String) (r dl : Nat),
      fetchLoop respond fuel none [] = some (Except.error msg, r, dl) →
      productsSyncJob false respond fuel e sy s = some (⟨false, 500, 0, some msg⟩, s)) := by
  refine ⟨fun T m => rfl, fun T st b g d => rfl, fun T st b g d => rfl, ?_, ?_, ?_⟩
  · intro R respond fuel c acc msg hresp
    unfold fetchLoop
    rw [hresp]
  · intro respond fuel e sy now sd ed s msg r dl hsd hed hloop
    unfold ordersSyncJob
    simp [hsd, hed, hloop]
  · intro respond fuel e sy s msg r dl hloop
    unfold productsSyncJob
    simp [hloop]

theorem fetch_failure_aborts_sync_witness :
    fetchLoop (fun _ => (Except.error "boom" : Except String (Page SOrder))) 1 none [] =
      some (Except.error "boom", 1, 0) ∧
    ordersSyncJob (fun _ => Except.error "boom") 1 (fun _ => noOrderErrs) "SY" ⟨"NOW"⟩
      (some "2024-01-01") (some "2024-01-31") emptyDB =
      some (⟨false, 500, 0, some "boom"⟩, emptyDB) ∧
    productsSyncJob false (fun _ => Except.error "boom") 1 (fun _ => noProductErrs) "SY"
      emptyDB = some (⟨false, 500, 0, some "boom"⟩, emptyDB) := by
  refine ⟨?_, ?_, ?_⟩
  · exact fetch_failure_aborts_sync.2.2.2.1 SOrder (fun _ => Except.error "boom") 0 none []
      "boom" rfl
  · exact fetch_failure_aborts_sync.2.2.2.2.1 (fun _ => Except.error "boom") 1
      (fun _ => noOrderErrs) "SY" ⟨"NOW"⟩ "2024-01-01" "2024-01-31" emptyDB "boom" 1 0
      (by decide) (by decide) rfl
  · exact fetch_failure_aborts_sync.2.2.2.2.2 (fun _ => Except.error "boom") 1
      (fun _ => noProductErrs) "SY" emptyDB "boom" 1 0 rfl

/-- C9: the sync server actions are total on every outcome of their
`try` block (no throw escapes): a thrown error is converted into a
response with `success = false` and `count = 0`; and on the non-error
path the returned `success` is always `true`, because
`responseData.success || true` cannot evaluate to `false` — in
particular even when the handler's body reports `success: false`. -/
theorem sync_actions_never_throw_success_forced (m : String) (rd : RespData)
    (sd ed : String) :
    syncProductsAction (Except.error m) =
      ⟨false, "Operation failed: " ++ m, JSNum.num 0, some m⟩ ∧
    syncOrdersAction sd ed (Except.error m) =
      ⟨false, "Operation failed: " ++ m, JSNum.num 0, some m⟩ ∧
    (syncProductsAction (Except.ok rd)).success = true ∧
    (syncOrdersAction sd ed (Except.ok rd)).success = true ∧
    (callShopifySync (Except.ok ⟨some false, none, none⟩)).success = true ∧
    (callShopifySync (Except.error m)).success = false ∧
    (callShopifySync (Except.error m)).count = JSNum.num 0 := by
  have hforced : ∀ v : Option Bool, jsOrBool v true = true := by
    intro v
    match v with
    | none => rfl
    | some true => rfl
    | some false => rfl
  exact ⟨rfl, rfl, hforced rd.success, hforced rd.success, rfl, rfl, rfl⟩

/-- C7: a record whose optional price field is missing is stored with
the numeric value `0`: the formatted variant, order and line item all
carry `0` for a missing amount; `safeNumber` maps `null`, `undefined`
and non-parsing strings to its default `0`; and the row actually
written to the store for such a variant carries price `0`. -/
theorem missing_price_defaults_to_zero (pid : Nat) (v : SVariant) (sy : String) (now : JSDate)
    (o : SOrder) (li : SLineItem) (oid : Nat) (pidO vidO : Option Nat) (s : DB) (str : String) :
    (v.price = none → (formatVariant pid v).price = JSNum.num 0) ∧
    (o.totalPrice = none → (formatOrder sy now o).total_price = JSNum.num 0) ∧
    ((li.variant.bind (·.price)).bind (·.amount) = none →
      (formatLineItem oid pidO vidO o li).price = JSNum.num 0) ∧
    safeNumber NumLike.null = JSNum.num 0 ∧
    safeNumber NumLike.undefined = JSNum.num 0 ∧
    ((parseFloat str).isNaN = true → safeNumber (NumLike.str str) = JSNum.num 0) ∧
    (v.price = none → v.id ≠ "" → DBOk s →
      ∃ r, findRow keyVar v.id (processVariant noTri pid s v).product_variants = some r ∧
        r.data.price = JSNum.num 0) := by
  refine ⟨?_, ?_, ?_, rfl, rfl, ?_, ?_⟩
  · intro h
    simp [formatVariant, h, NumLike.ofStr, safeNumber]
  · intro h
    simp [formatOrder, h, NumLike.ofStr, safeNumber]
  · intro h
    simp [formatLineItem, h, NumLike.ofStr, safeNumber]
  · intro h
    simp [safeNumber, h]
  · intro hpn hne hok
    have hred : processVariant noTri pid s v =
        { s with
          product_variants := (upsertRow mergeVariant keyVar (formatVariant pid v)
            s.product_variants s.nextId).1,
          nextId := (upsertRow mergeVariant keyVar (formatVariant pid v) s.product_variants
            s.nextId).2.2 } := by
      simp only [processVariant, if_neg hne, softUpsert_noTri]
    obtain ⟨_, _, _, _, _, hfneg, hfpos⟩ :=
      upsertRow_spec mergeVariant keyVar (formatVariant pid v) s.product_variants s.nextId
        hok.2.1.2.1 (fun _ => rfl)
    rw [hred]
    cases hfv : findRow keyVar (keyVar (formatVariant pid v)) s.product_variants with
    | none =>
      refine ⟨_, hfneg hfv, ?_⟩
      simp [formatVariant, hpn, NumLike.ofStr, safeNumber]
    | some r0 =>
      refine ⟨_, hfpos r0 hfv, ?_⟩
      show (mergeVariant r0.data (formatVariant pid v)).price = JSNum.num 0
      simp [mergeVariant, formatVariant, hpn, NumLike.ofStr, safeNumber]

theorem missing_price_defaults_to_zero_witness :
    (formatVariant 0 ⟨"v1", none, none, none, none, none, none⟩).price = JSNum.num 0 ∧
    safeNumber NumLike.null = JSNum.num 0 ∧
    (∃ r, findRow keyVar "v1"
        (processVariant noTri 0 emptyDB
          ⟨"v1", none, none, none, none, none, none⟩).product_variants = some r ∧
      r.data.price = JSNum.num 0) := by
  obtain ⟨h1, _, _, h4, _, _, h7⟩ :=
    missing_price_defaults_to_zero 0 ⟨"v1", none, none, none, none, none, none⟩ "SY" ⟨"NOW"⟩
      ⟨"o1", "N", none, none, "2024", none, none, none, none, none, none, none, none, none, []⟩
      ⟨"li1", none, none, none⟩ 0 none none emptyDB "abc"
  exact ⟨h1 rfl, h4, h7 rfl (by decide) emptyDB_ok⟩

/-- C8 counterexample: the claim says a missing optional date field is
coerced to the current time before the row is written. In the code,
`safeDate` maps a missing value to its default, which is `undefined`
when no default is supplied, and the products sync passes no default:
a product with no `createdAt` is written with `created_at` unset, not
with the current time. -/
theorem missing_date_not_coerced_to_now_counterexample :
    safeDate none = none ∧
    (formatProduct "SY"
      ⟨"p1", "T", none, none, none, none, none, none, none, [], []⟩).created_at = none ∧
    (formatProduct "SY"
      ⟨"p1", "T", none, none, none, none, none, none, none, [], []⟩).updated_at = none :=
  ⟨rfl, rfl, rfl⟩

/-- C8 amended: a missing optional date field is coerced to
`undefined` (the column is omitted from the written row), not to the
current time; `safeDate` returns its default for a missing value. The
current time appears only where the orders sync passes `new Date()`
explicitly — an argument that is never missing — so `created_at` and
`updated_at` of a formatted order always carry the current time. -/
theorem missing_date_maps_to_default (d : Option String) (p : SProduct) (sy : String)
    (now : JSDate) (o : SOrder) :
    safeDate none d = d ∧
    (p.createdAt = none → (formatProduct sy p).created_at = none) ∧
    (p.updatedAt = none → (formatProduct sy p).updated_at = none) ∧
    (formatOrder sy now o).created_at = some now.iso ∧
    (formatOrder sy now o).updated_at = some now.iso := by
  refine ⟨rfl, ?_, ?_, rfl, rfl⟩
  · intro h
    simp [formatProduct, h, safeDate]
  · intro h
    simp [formatProduct, h, safeDate]

theorem missing_date_maps_to_default_witness :
    safeDate none (some "D") = some "D" ∧
    (formatProduct "SY"
      ⟨"p1", "T", none, none, none, none, none, none, none, [], []⟩).created_at = none ∧
    (formatOrder "SY" ⟨"NOW"⟩
      ⟨"o1", "N", none, none, "2024", none, none, none, none, none, none, none, none, none,
        []⟩).created_at = some "NOW" := by
  obtain ⟨h1, h2, _, h4, _⟩ :=
    missing_date_maps_to_default (some "D")
      ⟨"p1", "T", none, none, none, none, none, none, none, [], []⟩ "SY" ⟨"NOW"⟩
      ⟨"o1", "N", none, none, "2024", none, none, none, none, none, none, none, none, none, []⟩
  exact ⟨h1, h2 rfl, h4⟩

/-- C10 counterexample: the claim quantifies over every default and
says `safeNumber` never returns `NaN`; but `NaN` is itself a valid
`number` default, and `safeNumber(null, NaN)` returns it. -/
theorem safeNumber_nan_default_counterexample :
    safeNumber NumLike.null JSNum.nan = JSNum.nan ∧
    (safeNumber NumLike.null JSNum.nan).isNaN = true :=
  ⟨rfl, rfl⟩

/-- C10 amended: `safeNumber` is total, and for every input and every
non-`NaN` default it returns a non-`NaN` number; `null`, `undefined`,
strings that `parseFloat` cannot parse, and `NaN` inputs all map to
the default, while parseable strings map to their parsed value. -/
theorem safeNumber_total_nan_free (v : NumLike) (d : JSNum) (hd : d.isNaN = false) :
    (safeNumber v d).isNaN = false ∧
    safeNumber NumLike.null d = d ∧
    safeNumber NumLike.undefined d = d ∧
    (∀ s, (parseFloat s).isNaN = true → safeNumber (NumLike.str s) d = d) ∧
    (∀ s, (parseFloat s).isNaN = false → safeNumber (NumLike.str s) d = parseFloat s) ∧
    (∀ x : JSNum, x.isNaN = true → safeNumber (NumLike.num x) d = d) := by
  refine ⟨?_, rfl, rfl, ?_, ?_, ?_⟩
  · cases v with
    | null => exact hd
    | undefined => exact hd
    | str s =>
      simp only [safeNumber]
      cases hp : (parseFloat s).isNaN
      · simp [hp]
      · simp [hp, hd]
    | num x =>
      simp only [safeNumber]
      cases hx : x.isNaN
      · simp [hx]
      · simp [hx, hd]
  · intro s hs
    simp [safeNumber, hs]
  · intro s hs
    simp [safeNumber, hs]
  · intro x hx
    simp [safeNumber, hx]

theorem safeNumber_total_nan_free_witness :
    (safeNumber (NumLike.str "abc") (JSNum.num 0)).isNaN = false ∧
    safeNumber (NumLike.str "abc") (JSNum.num 0) = JSNum.num 0 ∧
    safeNumber (NumLike.str "12.5") (JSNum.num 0) = parseFloat "12.5" := by
  obtain ⟨h1, _, _, h4, h5, _⟩ :=
    safeNumber_total_nan_free (NumLike.str "abc") (JSNum.num 0) rfl
  obtain ⟨_, _, _, _, h5', _⟩ :=
    safeNumber_total_nan_free (NumLike.str "12.5") (JSNum.num 0) rfl
  exact ⟨h1, h4 "abc" (by decide), h5' "12.5" (by decide)⟩

/-- C3: a line item whose id is missing is skipped — processing it
leaves the store untouched — while the parent order's row is still
persisted and every sibling line item with an id is still stored. -/
theorem missing_line_item_id_contained (o : SOrder) (li : SLineItem) (oid : Nat) (s : DB)
    (sy : String) (now : JSDate) (hok : DBOk s) (_hmem : li ∈ o.lineItems)
    (hbad : li.id = "") :
    processLineItem noLIErrs o oid s li = s ∧
    (orderValid o → o.id ∈ keysOf keyOrder (processOrder noOrderErrs sy now s o).orders) ∧
    (orderValid o → ∀ li' ∈ o.lineItems, li'.id ≠ "" →
      li'.id ∈ keysOf keyLI (processOrder noOrderErrs sy now s o).line_items) := by
  obtain ⟨_, _, _, _, _, _, hcovO, _, _, _, _, _, hcovL, _⟩ := processOrder_spec sy now s o hok
  exact ⟨by simp [processLineItem, hbad], hcovO, hcovL⟩

theorem missing_line_item_id_contained_witness :
    processLineItem noLIErrs
      ⟨"o1", "N", none, none, "2024", none, none, none, none, none, none, none, none, none,
        [⟨"", none, none, none⟩, ⟨"li2", none, none, none⟩]⟩ 0 emptyDB
      ⟨"", none, none, none⟩ = emptyDB ∧
    "o1" ∈ keysOf keyOrder (processOrder noOrderErrs "SY" ⟨"NOW"⟩ emptyDB
      ⟨"o1", "N", none, none, "2024", none, none, none, none, none, none, none, none, none,
        [⟨"", none, none, none⟩, ⟨"li2", none, none, none⟩]⟩).orders ∧
    "li2" ∈ keysOf keyLI (processOrder noOrderErrs "SY" ⟨"NOW"⟩ emptyDB
      ⟨"o1", "N", none, none, "2024", none, none, none, none, none, none, none, none, none,
        [⟨"", none, none, none⟩, ⟨"li2", none, none, none⟩]⟩).line_items := by
  obtain ⟨h1, h2, h3⟩ := missing_line_item_id_contained
    ⟨"o1", "N", none, none, "2024", none, none, none, none, none, none, none, none, none,
      [⟨"", none, none, none⟩, ⟨"li2", none, none, none⟩]⟩
    ⟨"", none, none, none⟩ 0 emptyDB "SY" ⟨"NOW"⟩ emptyDB_ok (by decide) rfl
  exact ⟨h1, h2 (by decide), h3 (by decide) ⟨"li2", none, none, none⟩ (by decide) (by decide)⟩

/-- C4 counterexample: the claim says a line item referencing an
unsynced product is stored with a null product reference. On the
update path of the upsert this is false: the unresolved `product_id`
is `undefined`, `JSON.stringify` drops it from the update payload, and
the existing row keeps its stale internal product key. Here the store
holds no product row for the referenced external id "p1", yet after
processing, the stored line item still carries `product_id = 5` from a
previous run instead of null. -/
theorem stale_product_id_survives_update_counterexample :
    (processLineItem noLIErrs
      ⟨"o1", "N", none, none, "2024", none, none, none, none, none, none, none, none, none,
        [⟨"li1", none, none, some ⟨"v9", none, some ⟨"p1"⟩⟩⟩]⟩ 0
      (⟨[], [], [], [], [], [],
        [⟨3, ⟨7, "li1", some "T", JSNum.num 2, JSNum.num 9, some "EUR", some 5, some 6⟩⟩],
        4⟩ : DB)
      ⟨"li1", none, none, some ⟨"v9", none, some ⟨"p1"⟩⟩⟩).line_items =
      [⟨3, ⟨0, "li1", some "T", JSNum.num 0, JSNum.num 0, some "USD", some 5, some 6⟩⟩] := by
  rfl

/-- C4 amended: for a line item whose variant references a product
external id: if a product row with that external id exists, the
stored line item's `product_id` equals that row's internal primary
key (on both the insert and the update path); if no such product row
exists, the line item is still stored and no error aborts it, but
only a newly inserted row has its product reference unset — an
updated existing row keeps its previously stored `product_id`,
because the `undefined` field is dropped from the update payload. In
every case the line item row is present afterwards. -/
theorem line_item_product_fk_resolution (o : SOrder) (li : SLineItem) (v : SLineItemVariant)
    (pref : SLineItemProduct) (oid : Nat) (s : DB)
    (hok : DBOk s) (hli : li.id ≠ "") (hv : li.variant = some v) (hp : v.product = some pref)
    (hpne : pref.id ≠ "") :
    (∀ r ∈ s.products, keyProd r.data = pref.id →
      ∃ rl, findRow keyLI li.id (processLineItem noLIErrs o oid s li).line_items = some rl ∧
        rl.data.product_id = some r.id) ∧
    ((∀ r ∈ s.products, keyProd r.data ≠ pref.id) →
      findRow keyLI li.id s.line_items = none →
      ∃ rl, findRow keyLI li.id (processLineItem noLIErrs o oid s li).line_items = some rl ∧
        rl.data.product_id = none) ∧
    ((∀ r ∈ s.products, keyProd r.data ≠ pref.id) →
      ∀ rOld, findRow keyLI li.id s.line_items = some rOld →
      ∃ rl, findRow keyLI li.id (processLineItem noLIErrs o oid s li).line_items = some rl ∧
        rl.data.product_id = rOld.data.product_id) ∧
    li.id ∈ keysOf keyLI (processLineItem noLIErrs o oid s li).line_items := by
  have hpidm : liProductId noLIErrs li s = idOf keyProd pref.id s.products := by
    simp [liProductId, hv, hp, hpne, noLIErrs]
  have hred : processLineItem noLIErrs o oid s li =
      { s with
        line_items := (upsertRow mergeLineItem keyLI
          (formatLineItem oid (liProductId noLIErrs li s) (liVariantId noLIErrs li s) o li)
          s.line_items s.nextId).1,
        nextId := (upsertRow mergeLineItem keyLI
          (formatLineItem oid (liProductId noLIErrs li s) (liVariantId noLIErrs li s) o li)
          s.line_items s.nextId).2.2 } := by
    simp only [processLineItem, if_neg hli]
    rw [show noLIErrs.item = noTri from rfl, softUpsert_noTri]
  obtain ⟨_, hcov, _, _, _, hfneg, hfpos⟩ :=
    upsertRow_spec mergeLineItem keyLI
      (formatLineItem oid (liProductId noLIErrs li s) (liVariantId noLIErrs li s) o li)
      s.line_items s.nextId hok.2.2.2.2.2.2.2.1 (fun _ => rfl)
  refine ⟨?_, ?_, ?_, ?_⟩
  · intro r hr hk
    have hpid : liProductId noLIErrs li s = some r.id := by
      rw [hpidm, idOf, findRow_eq_of_nodup hok.1.1 hr hk]
      rfl
    rw [hred]
    cases hfl : findRow keyLI
        (keyLI (formatLineItem oid (liProductId noLIErrs li s) (liVariantId noLIErrs li s)
          o li)) s.line_items with
    | none =>
      refine ⟨_, hfneg hfl, ?_⟩
      show liProductId noLIErrs li s = some r.id
      exact hpid
    | some r0 =>
      refine ⟨_, hfpos r0 hfl, ?_⟩
      show patchField (liProductId noLIErrs li s) r0.data.product_id = some r.id
      rw [hpid]
      rfl
  · intro hno hnone
    have hpid : liProductId noLIErrs li s = none := by
      rw [hpidm, idOf, findRow_eq_none_iff.2 ?_]
      · rfl
      · intro hmem
        obtain ⟨r, hr, hk⟩ := List.mem_map.1 hmem
        exact hno r hr hk
    rw [hred]
    refine ⟨_, hfneg hnone, ?_⟩
    show liProductId noLIErrs li s = none
    exact hpid
  · intro hno rOld hrOld
    have hpid : liProductId noLIErrs li s = none := by
      rw [hpidm, idOf, findRow_eq_none_iff.2 ?_]
      · rfl
      · intro hmem
        obtain ⟨r, hr, hk⟩ := List.mem_map.1 hmem
        exact hno r hr hk
    rw [hred]
    refine ⟨_, hfpos rOld hrOld, ?_⟩
    show patchField (liProductId noLIErrs li s) rOld.data.product_id = rOld.data.product_id
    rw [hpid]
    rfl
  · rw [hred]
    exact hcov

theorem line_item_product_fk_resolution_witness :
    ∃ rl, findRow keyLI "li1"
        (processLineItem noLIErrs
          ⟨"o1", "N", none, none, "2024", none, none, none, none, none, none, none, none,
            none, [⟨"li1", none, none, some ⟨"var1", none, some ⟨"p1"⟩⟩⟩]⟩ 0
          (⟨[⟨5, ⟨"p1", "T", none, none, none, none, none, JSNum.num 0, JSNum.num 0,
            JSNum.num 0, none, "SY"⟩⟩], [], [], [], [], [], [], 6⟩ : DB)
          ⟨"li1", none, none, some ⟨"var1", none, some ⟨"p1"⟩⟩⟩).line_items = some rl ∧
      rl.data.product_id = some 5 := by
  obtain ⟨h1, _, _, _⟩ := line_item_product_fk_resolution
    ⟨"o1", "N", none, none, "2024", none, none, none, none, none, none, none, none, none,
      [⟨"li1", none, none, some ⟨"var1", none, some ⟨"p1"⟩⟩⟩]⟩
    ⟨"li1", none, none, some ⟨"var1", none, some ⟨"p1"⟩⟩⟩
    ⟨"var1", none, some ⟨"p1"⟩⟩ ⟨"p1"⟩ 0
    (⟨[⟨5, ⟨"p1", "T", none, none, none, none, none, JSNum.num 0, JSNum.num 0, JSNum.num 0,
      none, "SY"⟩⟩], [], [], [], [], [], [], 6⟩ : DB)
    (by decide) (by decide) rfl rfl (by decide)
  exact h1 ⟨5, ⟨"p1", "T", none, none, none, none, none, JSNum.num 0, JSNum.num 0,
    JSNum.num 0, none, "SY"⟩⟩ (by decide) rfl

/-- C2: evaluation at the failing input of the customer-check-error
bug. For an order with a customer and one well-formed line item,
making only the customer existence check fail leaves the line-items
table empty (the `continue` in the source jumps to the next order,
skipping this order's addresses and line items), although the parent
order row was written; with no failures the same order stores its line
item. The code's own comment says this error should "continue with the
order processing". -/
theorem customer_check_error_skips_line_items :
    (processOrder ⟨noTri, ⟨true, false, false⟩, noTri, noTri, fun _ => noLIErrs⟩ "SY" ⟨"NOW"⟩
      emptyDB
      ⟨"o1", "N", none, none, "2024", none, none, none, none, none, none,
        some ⟨"c1", none, none, none, none⟩, none, none,
        [⟨"li1", none, none, none⟩]⟩).line_items = [] ∧
    (processOrder ⟨noTri, ⟨true, false, false⟩, noTri, noTri, fun _ => noLIErrs⟩ "SY" ⟨"NOW"⟩
      emptyDB
      ⟨"o1", "N", none, none, "2024", none, none, none, none, none, none,
        some ⟨"c1", none, none, none, none⟩, none, none,
        [⟨"li1", none, none, none⟩]⟩).orders.length = 1 ∧
    (processOrder noOrderErrs "SY" ⟨"NOW"⟩ emptyDB
      ⟨"o1", "N", none, none, "2024", none, none, none, none, none, none,
        some ⟨"c1", none, none, none, none⟩, none, none,
        [⟨"li1", none, none, none⟩]⟩).line_items.length = 1 :=
  ⟨rfl, rfl, rfl⟩

end ShopifyViewer
